import Mathlib

/-!
# VCTR expression templates: storage info, subtraction nodes, alias check

A shallow embedding of
* `include/vctr/SIMD/SIMDHelpers.h` (storage info types and their combination),
* `include/vctr/Expressions/Core/Subtract.h` (the three subtraction nodes, the
  `operator-` overloads building them, and their IPP-backed bulk evaluation),
* `include/vctr/Expressions/Filter/NoAcceleration.h` and `Filter/SIMDFilter.h`
  (the four acceleration filters),
* `include/vctr/PlatformVectorOps/IntelIPP.h` (status validation and the `sub` and
  `div` adapters),
* `include/vctr/Expressions/DSP/Decibels.h` (the decibel conversion chain).

Addresses, sizes and indices are natural numbers; `size_t` arithmetic is
reduced modulo `2 ^ sizeBits` where the source computes in `size_t`.
Element access is `Option` valued: reading past the end of a container is
undefined in the source and is `none` here.

Containers that own their buffers are read from a memory of buffers (`Memory`);
containers and views whose ranges may overlap are read from a flat memory of
elements (`FlatMemory`).
-/

namespace vctr

/-! ## SIMDHelpers.h -/

namespace detail

/-- `detail::isPtrAligned<requiredAlignment> (ptr)`:
`reinterpret_cast<std::uintptr_t> (ptr) % requiredAlignment == 0`. -/
def isPtrAligned (requiredAlignment : Nat) (ptr : Nat) : Bool :=
  ptr % requiredAlignment == 0

end detail

/-- The concept `is::storageInfo`: a type whose values expose the two booleans
`dataIsSIMDAligned` and `hasSIMDExtendedStorage`. -/
class IsStorageInfo (T : Type) where
  dataIsSIMDAligned : T → Bool
  hasSIMDExtendedStorage : T → Bool

/-- The concept `is::constexprStorageInfo`: both booleans are static constexpr
members, so they are determined by the type alone. -/
class IsConstexprStorageInfo (T : Type) where
  dataIsSIMDAligned : Bool
  hasSIMDExtendedStorage : Bool

/-- A static member can be read through an instance (`a.dataIsSIMDAligned`), so
every constexpr storage info is a storage info. -/
instance constexprIsStorageInfo (T : Type) [IsConstexprStorageInfo T] : IsStorageInfo T where
  dataIsSIMDAligned := fun _ => IsConstexprStorageInfo.dataIsSIMDAligned T
  hasSIMDExtendedStorage := fun _ => IsConstexprStorageInfo.hasSIMDExtendedStorage T

/-- The primary template `StorageInfo<StorageType>`: two runtime booleans. -/
structure StorageInfo where
  dataIsSIMDAligned : Bool
  hasSIMDExtendedStorage : Bool
  deriving DecidableEq, Repr

instance : IsStorageInfo StorageInfo where
  dataIsSIMDAligned := StorageInfo.dataIsSIMDAligned
  hasSIMDExtendedStorage := StorageInfo.hasSIMDExtendedStorage

/-- The constructor `StorageInfo (const StorageType& storage)`.

`dataPtr` is the address `storage.data()`, `size` is `storage.size()` and
`sizeofValueType` is `sizeof (typename StorageType::value_type)`. The product is a
`size_t` product, hence taken modulo `2 ^ sizeBits`. `maxSIMDRegisterSize` is
`Config::maxSIMDRegisterSize`, whose definition is not part of the embedded
sources and is therefore a parameter. -/
def StorageInfo.ofStorage (maxSIMDRegisterSize sizeBits : Nat)
    (dataPtr size sizeofValueType : Nat) : StorageInfo where
  dataIsSIMDAligned := detail.isPtrAligned maxSIMDRegisterSize dataPtr
  hasSIMDExtendedStorage :=
    ((size * sizeofValueType) % 2 ^ sizeBits) % maxSIMDRegisterSize == 0

/-- The converting constructor `StorageInfo (const OtherStorageInfoType& other)`. -/
def StorageInfo.ofOther {Other : Type} [IsStorageInfo Other] (other : Other) : StorageInfo where
  dataIsSIMDAligned := IsStorageInfo.dataIsSIMDAligned other
  hasSIMDExtendedStorage := IsStorageInfo.hasSIMDExtendedStorage other

/-- `StaticStorageInfo<isDataSIMDAligned, isStorageSIMDExtended, customMemberAlignment>`:
no data members, all three facts live in the type. -/
structure StaticStorageInfo (isDataSIMDAligned isStorageSIMDExtended : Bool)
    (customMemberAlignment : Nat) : Type where
  mk ::

instance (isDataSIMDAligned isStorageSIMDExtended : Bool) (customMemberAlignment : Nat) :
    IsConstexprStorageInfo
      (StaticStorageInfo isDataSIMDAligned isStorageSIMDExtended customMemberAlignment) where
  dataIsSIMDAligned := isDataSIMDAligned
  hasSIMDExtendedStorage := isStorageSIMDExtended

/-- The primary template `CombinedStorageInfo<InfoA, InfoB>`: two runtime booleans. -/
structure CombinedStorageInfo where
  dataIsSIMDAligned : Bool
  hasSIMDExtendedStorage : Bool
  deriving DecidableEq, Repr

instance : IsStorageInfo CombinedStorageInfo where
  dataIsSIMDAligned := CombinedStorageInfo.dataIsSIMDAligned
  hasSIMDExtendedStorage := CombinedStorageInfo.hasSIMDExtendedStorage

/-- The constructor `CombinedStorageInfo (const InfoA& a, const InfoB& b)` of the
primary template. -/
def CombinedStorageInfo.combine {InfoA InfoB : Type} [IsStorageInfo InfoA] [IsStorageInfo InfoB]
    (a : InfoA) (b : InfoB) : CombinedStorageInfo where
  dataIsSIMDAligned :=
    IsStorageInfo.dataIsSIMDAligned a && IsStorageInfo.dataIsSIMDAligned b
  hasSIMDExtendedStorage :=
    IsStorageInfo.hasSIMDExtendedStorage a && IsStorageInfo.hasSIMDExtendedStorage b

/-- The specialisation of `CombinedStorageInfo<InfoA, InfoB>` for two
`is::constexprStorageInfo` arguments: no data members. -/
structure CombinedStorageInfoConstexpr (InfoA InfoB : Type) : Type where
  mk ::

/-- The static constexpr members of the specialisation. -/
instance (InfoA InfoB : Type) [IsConstexprStorageInfo InfoA] [IsConstexprStorageInfo InfoB] :
    IsConstexprStorageInfo (CombinedStorageInfoConstexpr InfoA InfoB) where
  dataIsSIMDAligned :=
    IsConstexprStorageInfo.dataIsSIMDAligned InfoA && IsConstexprStorageInfo.dataIsSIMDAligned InfoB
  hasSIMDExtendedStorage :=
    IsConstexprStorageInfo.hasSIMDExtendedStorage InfoA &&
      IsConstexprStorageInfo.hasSIMDExtendedStorage InfoB

/-! ## Sources of an expression: containers and subtraction nodes (Subtract.h) -/

/-- A memory-backed vector (`is::anyVctr`: Vector, Array or Span). Only what the
subtraction nodes use is kept: the address returned by `data()`, the elements
read by `operator[]` (their number is `size()`), and the value returned by
`getStorageInfo()`. -/
structure Vctr (α : Type) where
  data : Nat
  storage : List α
  storageInfo : StorageInfo

/-- The value returned by `getStorageInfo()` of a source: the `StorageInfo` of a
container, or the `CombinedStorageInfo` member of a `SubtractVectors` node. -/
inductive SrcStorageInfo where
  | ofVctr (info : StorageInfo)
  | ofSubtractVectors (info : CombinedStorageInfo)
  deriving DecidableEq, Repr

instance : IsStorageInfo SrcStorageInfo where
  dataIsSIMDAligned := fun
    | .ofVctr info => info.dataIsSIMDAligned
    | .ofSubtractVectors info => info.dataIsSIMDAligned
  hasSIMDExtendedStorage := fun
    | .ofVctr info => info.hasSIMDExtendedStorage
    | .ofSubtractVectors info => info.hasSIMDExtendedStorage

/-- A source type accepted by the `operator-` overloads (`is::anyVctrOrExpression`):
a container or one of the three subtraction nodes, which own their operands.
`α` is the `value_type` of the node, the common element type of its operands. -/
inductive Src (α : Type) where
  | vctr (v : Vctr α)
  | SubtractVectors (srcA srcB : Src α)
  | SubtractVecFromSingle (single : α) (src : Src α)
  | SubtractSingleFromVec (src : Src α) (single : α)

namespace Src

variable {α : Type}

/-- The concept `is::anyVctr`. -/
def isAnyVctr : Src α → Bool
  | vctr _ => true
  | _ => false

/-- The concept `is::expression` (the node derives from `ExpressionTemplateBase`). -/
def isExpression : Src α → Bool
  | vctr _ => false
  | _ => true

/-- The member `size()`: `srcA.size()` for `SubtractVectors`, `src.size()` for the
two scalar shapes, the number of elements for a container. -/
def size : Src α → Nat
  | vctr v => v.storage.length
  | SubtractVectors srcA _ => srcA.size
  | SubtractVecFromSingle _ src => src.size
  | SubtractSingleFromVec src _ => src.size

/-- The member `operator[] (size_t i)`: `srcA[i] - srcB[i]`, `single - src[i]`,
`src[i] - single`. -/
def get [Sub α] : Src α → Nat → Option α
  | vctr v, i => v.storage[i]?
  | SubtractVectors srcA srcB, i => do
      let a ← srcA.get i
      let b ← srcB.get i
      pure (a - b)
  | SubtractVecFromSingle single src, i => do
      let b ← src.get i
      pure (single - b)
  | SubtractSingleFromVec src single, i => do
      let a ← src.get i
      pure (a - single)

/-- The member `getStorageInfo()`: the `CombinedStorageInfo` built in the
constructor of `SubtractVectors` from `srcA.getStorageInfo()` and
`srcB.getStorageInfo()`; the two scalar shapes return `src.getStorageInfo()`. -/
def getStorageInfo : Src α → SrcStorageInfo
  | vctr v => .ofVctr v.storageInfo
  | SubtractVectors srcA srcB =>
      .ofSubtractVectors (CombinedStorageInfo.combine srcA.getStorageInfo srcB.getStorageInfo)
  | SubtractVecFromSingle _ src => src.getStorageInfo
  | SubtractSingleFromVec src _ => src.getStorageInfo

/-- The member `isNotAliased (const void* dst)`.

For `SubtractVectors` the two `if constexpr` branches are selected by the operand
kinds; the two scalar shapes return `src.isNotAliased (other)`. The member of
the containers is not part of the embedded sources and is the parameter
`vctrIsNotAliased`. -/
def isNotAliased (vctrIsNotAliased : Vctr α → Nat → Bool) : Src α → Nat → Bool
  | vctr v, dst => vctrIsNotAliased v dst
  | SubtractVectors srcA srcB, dst =>
      match srcA, srcB with
      -- two containers: neither branch is selected
      | vctr _, vctr _ => true
      -- `is::expression<SrcAType> && is::anyVctr<SrcBType>`
      | _, vctr b => dst != b.data
      -- `is::anyVctr<SrcAType> && is::expression<SrcBType>`
      | vctr a, _ => dst != a.data
      -- two expressions: neither branch is selected
      | _, _ => true
  | SubtractVecFromSingle _ src, other => src.isNotAliased vctrIsNotAliased other
  | SubtractSingleFromVec src _, other => src.isNotAliased vctrIsNotAliased other

/-- The containers a source ultimately reads from, left to right. -/
def leaves : Src α → List (Vctr α)
  | vctr v => [v]
  | SubtractVectors srcA srcB => srcA.leaves ++ srcB.leaves
  | SubtractVecFromSingle _ src => src.leaves
  | SubtractSingleFromVec src _ => src.leaves

/-- Every `SubtractVectors` node inside the source has two operands of the same
size, as is the case for every source built through the `operator-` overloads. -/
def sizesAgree : Src α → Bool
  | vctr _ => true
  | SubtractVectors srcA srcB => srcA.sizesAgree && srcB.sizesAgree && srcA.size == srcB.size
  | SubtractVecFromSingle _ src => src.sizesAgree
  | SubtractSingleFromVec src _ => src.sizesAgree

end Src

/-- Modelled from the spec: `assertCommonSize (a, b)`, called by `operator-` and
not part of the embedded sources. All operand sizes in a composite must be
equal at construction, enforced by an assertion: the check passes exactly when
`a.size() == b.size()`. -/
def assertCommonSize {α : Type} (a b : Src α) : Option Unit :=
  if a.size = b.size then some () else none

/-- The overload `operator- (SrcAType&& a, SrcBType&& b)` for two vector like
operands: `assertCommonSize`, then the `SubtractVectors` node. -/
def operator_minus {α : Type} (a b : Src α) : Option (Src α) := do
  assertCommonSize a b
  pure (Src.SubtractVectors a b)

/-- The overload `operator- (value_type single, Src&& vec)`. -/
def operator_minus_single_vec {α : Type} (single : α) (vec : Src α) : Src α :=
  Src.SubtractVecFromSingle single vec

/-- The overload `operator- (Src&& vec, value_type single)`. -/
def operator_minus_vec_single {α : Type} (vec : Src α) (single : α) : Src α :=
  Src.SubtractSingleFromVec vec single


/-! ## Memory, and expressions with acceleration filters
(Subtract.h, Filter/NoAcceleration.h, Filter/SIMDFilter.h) -/

/-- The memory of containers that own their buffers (Vector, Array): the contents of the
buffer that starts at each address. Buffers that start at different addresses are
disjoint here, so two containers alias exactly when they have the same `data()`
address. Views into a part of another container's buffer (Span, `subSpan`) are not
represented in this memory; they are read through `FlatMemory`. -/
abbrev Memory (α : Type) := Nat → List α

/-- The assignment `dst[i] = x` through the pointer `dst`. -/
def Memory.store {α : Type} (mem : Memory α) (dst i : Nat) (x : α) : Memory α :=
  Function.update mem dst ((mem dst).set i x)

/-- The container as it reads when the memory is `mem`: same `data()`, same storage
info, and the elements found in `mem` at `data()`. -/
def Vctr.load {α : Type} (mem : Memory α) (v : Vctr α) : Vctr α :=
  { v with storage := mem v.data }

/-- An expression built from containers, the three subtraction nodes and the four
acceleration filters. -/
inductive Expr (α : Type) where
  | vctr (v : Vctr α)
  | SubtractVectors (srcA srcB : Expr α)
  | SubtractVecFromSingle (single : α) (src : Expr α)
  | SubtractSingleFromVec (src : Expr α) (single : α)
  | NoAccelerationFilter (src : Expr α)
  | SSEFilter (src : Expr α)
  | AVXFilter (src : Expr α)
  | NeonFilter (src : Expr α)

/-- Modelled from the spec: the `size()` member that the macro
`VCTR_COMMON_UNARY_EXPRESSION_MEMBERS` declares in each filter class. The macro is not
part of the embedded sources; a filter is a pass-through node with the same `size()`
as its single operand. -/
def commonUnaryExpressionSize (srcSize : Nat) : Nat := srcSize

namespace Expr

variable {α : Type}

/-- The member `size()`. -/
def size : Expr α → Nat
  | vctr v => v.storage.length
  | SubtractVectors srcA _ => srcA.size
  | SubtractVecFromSingle _ src => src.size
  | SubtractSingleFromVec src _ => src.size
  | NoAccelerationFilter src => commonUnaryExpressionSize src.size
  | SSEFilter src => commonUnaryExpressionSize src.size
  | AVXFilter src => commonUnaryExpressionSize src.size
  | NeonFilter src => commonUnaryExpressionSize src.size

/-- The member `operator[] (size_t i)`: the subtraction nodes as in `Src.get`, each
filter returns `src[i]`. -/
def get [Sub α] : Expr α → Nat → Option α
  | vctr v, i => v.storage[i]?
  | SubtractVectors srcA srcB, i => do
      let a ← srcA.get i
      let b ← srcB.get i
      pure (a - b)
  | SubtractVecFromSingle single src, i => do
      let b ← src.get i
      pure (single - b)
  | SubtractSingleFromVec src single, i => do
      let a ← src.get i
      pure (a - single)
  | NoAccelerationFilter src, i => src.get i
  | SSEFilter src, i => src.get i
  | AVXFilter src, i => src.get i
  | NeonFilter src, i => src.get i

/-- The expression as it reads when the memory is `mem`: every container is loaded. -/
def load (mem : Memory α) : Expr α → Expr α
  | vctr v => vctr (v.load mem)
  | SubtractVectors srcA srcB => SubtractVectors (srcA.load mem) (srcB.load mem)
  | SubtractVecFromSingle single src => SubtractVecFromSingle single (src.load mem)
  | SubtractSingleFromVec src single => SubtractSingleFromVec (src.load mem) single
  | NoAccelerationFilter src => NoAccelerationFilter (src.load mem)
  | SSEFilter src => SSEFilter (src.load mem)
  | AVXFilter src => AVXFilter (src.load mem)
  | NeonFilter src => NeonFilter (src.load mem)

/-- The containers an expression ultimately reads from, left to right. -/
def leaves : Expr α → List (Vctr α)
  | vctr v => [v]
  | SubtractVectors srcA srcB => srcA.leaves ++ srcB.leaves
  | SubtractVecFromSingle _ src => src.leaves
  | SubtractSingleFromVec src _ => src.leaves
  | NoAccelerationFilter src => src.leaves
  | SSEFilter src => src.leaves
  | AVXFilter src => src.leaves
  | NeonFilter src => src.leaves

/-- Every `SubtractVectors` node inside the expression has two operands of the same
size, as `operator-` asserts when it builds the node. -/
def sizesAgree : Expr α → Bool
  | vctr _ => true
  | SubtractVectors srcA srcB => srcA.sizesAgree && srcB.sizesAgree && srcA.size == srcB.size
  | SubtractVecFromSingle _ src => src.sizesAgree
  | SubtractSingleFromVec src _ => src.sizesAgree
  | NoAccelerationFilter src => src.sizesAgree
  | SSEFilter src => src.sizesAgree
  | AVXFilter src => src.sizesAgree
  | NeonFilter src => src.sizesAgree

end Expr

/-- Modelled from the spec: the elementwise fallback of an assignment, which is part of
the container layer and not of the embedded sources, over containers that own their
buffers. It runs `dst[i] = e[i]` for `i = 0 .. size - 1` in increasing order; every
`e[i]` is read from the memory as the earlier stores have left it. The result is `none`
when an element is read past the end of a container. -/
def assignElementwise {α : Type} [Sub α] (e : Expr α) (dst : Nat) (mem : Memory α) :
    Option (Memory α) :=
  (List.range (e.load mem).size).foldlM
    (fun m i => do
      let x ← (e.load m).get i
      pure (m.store dst i x))
    mem

/-! ## Flat memory: containers and views that share elements -/

/-- The memory as one array of elements: the element stored at each address, with
addresses counted in elements. Element `i` of a container whose `data()` is `p` is the
element at address `p + i`, so two containers whose ranges overlap share elements, as
two Spans over parts of one Vector do. -/
abbrev FlatMemory (α : Type) := Nat → α

/-- The assignment `dst[i] = x` through the pointer `dst`. -/
def FlatMemory.store {α : Type} (mem : FlatMemory α) (dst i : Nat) (x : α) : FlatMemory α :=
  Function.update mem (dst + i) x

/-- The build target: the constants `archX64` and `archARM`, fixed per build and
declared outside the embedded sources. -/
structure Arch where
  archX64 : Bool
  archARM : Bool
  deriving DecidableEq, Repr

/-- The register types `SSERegister<value_type>`, `AVXRegister<value_type>` and
`NeonRegister<value_type>`, declared outside the embedded sources. -/
structure Registers where
  SSE : Type
  AVX : Type
  Neon : Type

/-- What a source type `SrcType` offers to the node built on top of it: `size()`,
`operator[]`, and the optional members `getSSE`, `getAVX`, `getNeon` and
`evalNextVectorOpInExpressionChain`. An optional member that the type does not have
(`has::getSSE<SrcType>` is false, and so on) is `none`. -/
structure ExpressionNode (α : Type) (R : Registers) where
  size : Nat
  get : Nat → Option α
  getSSE : Option (Nat → R.SSE)
  getAVX : Option (Nat → R.AVX)
  getNeon : Option (Nat → R.Neon)
  evalNextVectorOpInExpressionChain : Option (Nat → Memory α → Memory α × Nat)

/-- The evaluation strategies a node can offer. -/
inductive Tier where
  | scalar
  | SSE
  | AVX
  | Neon
  | vendorBulk
  deriving DecidableEq, Repr, Fintype

namespace ExpressionNode

variable {α : Type} {R : Registers}

/-- Whether the node offers the tier: `operator[]` always exists, the other tiers are
the optional members. -/
def offers (n : ExpressionNode α R) : Tier → Bool
  | .scalar => true
  | .SSE => n.getSSE.isSome
  | .AVX => n.getAVX.isSome
  | .Neon => n.getNeon.isSome
  | .vendorBulk => n.evalNextVectorOpInExpressionChain.isSome

/-- The capability set of the node. -/
def capabilities (n : ExpressionNode α R) : Finset Tier :=
  Finset.univ.filter (fun t => n.offers t = true)

/-- The register accessors of the node exist only for the architecture of the build,
as every `getSSE` and `getAVX` requires `archX64` and every `getNeon` requires
`archARM`. -/
def matchesArch (n : ExpressionNode α R) (arch : Arch) : Bool :=
  (!n.getSSE.isSome || arch.archX64) && (!n.getAVX.isSome || arch.archX64)
    && (!n.getNeon.isSome || arch.archARM)

end ExpressionNode

section Filters

variable {α : Type} {R : Registers}

/-- The class `NoAccelerationFilter`: `operator[]` returns `src[i]`, no other
evaluation member is declared. -/
def NoAccelerationFilter (src : ExpressionNode α R) : ExpressionNode α R where
  size := commonUnaryExpressionSize src.size
  get := fun i => src.get i
  getSSE := none
  getAVX := none
  getNeon := none
  evalNextVectorOpInExpressionChain := none

/-- The class `SSEFilter`: `operator[]` returns `src[i]`; `getSSE` requires
`archX64 && has::getSSE<SrcType>` and returns `src.getSSE (i)`. -/
def SSEFilter (arch : Arch) (src : ExpressionNode α R) : ExpressionNode α R where
  size := commonUnaryExpressionSize src.size
  get := fun i => src.get i
  getSSE :=
    match arch.archX64, src.getSSE with
    | true, some srcGetSSE => some (fun i => srcGetSSE i)
    | _, _ => none
  getAVX := none
  getNeon := none
  evalNextVectorOpInExpressionChain := none

/-- The class `AVXFilter`: `operator[]` returns `src[i]`; the two `getAVX` overloads
require `archX64 && has::getAVX<SrcType>` together with `is::floatNumber<value_type>`
(target avx), respectively its negation (target avx2), and both return
`src.getAVX (i)`. `isFloatNumber` is `is::floatNumber<value_type>`. -/
def AVXFilter (arch : Arch) (isFloatNumber : Bool) (src : ExpressionNode α R) :
    ExpressionNode α R where
  size := commonUnaryExpressionSize src.size
  get := fun i => src.get i
  getSSE := none
  getAVX :=
    match arch.archX64, src.getAVX, isFloatNumber with
    | true, some srcGetAVX, true => some (fun i => srcGetAVX i)
    | true, some srcGetAVX, false => some (fun i => srcGetAVX i)
    | _, _, _ => none
  getNeon := none
  evalNextVectorOpInExpressionChain := none

/-- The class `NeonFilter`: `operator[]` returns `src[i]`; `getNeon` requires
`archARM && has::getNeon<SrcType>` and returns `src.getNeon (i)`. -/
def NeonFilter (arch : Arch) (src : ExpressionNode α R) : ExpressionNode α R where
  size := commonUnaryExpressionSize src.size
  get := fun i => src.get i
  getSSE := none
  getAVX := none
  getNeon :=
    match arch.archARM, src.getNeon with
    | true, some srcGetNeon => some (fun i => srcGetNeon i)
    | _, _ => none
  evalNextVectorOpInExpressionChain := none

/-- The four filter classes, as selected by the chain builders `dontUseAcceleration`,
`useSSE`, `useAVX` and `useNeon`. -/
inductive FilterKind where
  | dontUseAcceleration
  | useSSE
  | useAVX
  | useNeon
  deriving DecidableEq, Repr

/-- The node that the chain builder of the given kind puts on top of `src`. -/
def FilterKind.apply (arch : Arch) (isFloatNumber : Bool) :
    FilterKind → ExpressionNode α R → ExpressionNode α R
  | .dontUseAcceleration, src => NoAccelerationFilter src
  | .useSSE, src => SSEFilter arch src
  | .useAVX, src => AVXFilter arch isFloatNumber src
  | .useNeon, src => NeonFilter arch src

/-- The tiers a filter class declares an accessor for. -/
def FilterKind.allows : FilterKind → Tier → Bool
  | _, .scalar => true
  | .useSSE, .SSE => true
  | .useAVX, .AVX => true
  | .useNeon, .Neon => true
  | _, _ => false

end Filters

/-! ## The Intel IPP adapters (PlatformVectorOps/IntelIPP.h) -/

/-- The vendor type `IppStatus`, an integer status code. -/
abbrev IppStatus := Int

/-- The two status constants of the vendor header that the adapters name. Their values
are fixed by the vendor and are parameters here. -/
structure IppStatusCodes where
  ippStsNoErr : IppStatus
  ippStsSingularity : IppStatus

/-- Modelled from the spec: the macro `VCTR_ASSERT`, which is not part of the embedded
sources. A status outside the allow-list is a fatal assertion: the assertion passes
exactly when its condition holds, and aborts (`none`) otherwise. -/
def VCTR_ASSERT (condition : Bool) : Option Unit :=
  if condition then some () else none

/-- The function `assertAllowedStatus<allowedStatus...> (s)`:
`VCTR_ASSERT ((s == allowedStatus) || ...)`; the fold over an empty pack is `false`. -/
def assertAllowedStatus (allowedStatus : List IppStatus) (s : IppStatus) : Option Unit :=
  VCTR_ASSERT (allowedStatus.foldr (fun allowed rest => s == allowed || rest) false)

/-- The function `assertIppNoErr (s)`: `assertAllowedStatus<ippStsNoErr> (s)`. -/
def assertIppNoErr (codes : IppStatusCodes) (s : IppStatus) : Option Unit :=
  assertAllowedStatus [codes.ippStsNoErr] s

/-- The element types `T` for which `IntelIPP<T>` is specialised. -/
inductive IppElementType where
  | float
  | double
  | complexFloat
  | complexDouble
  | int32
  deriving DecidableEq, Repr

/-- The static member functions of the specialisations, one name per overload:
`addVec`, `subVec`, `mulVec`, `divVec` take two vectors; `addC`, `subC`, `mulC`, `divC` a
vector and then a scalar; `subCRev`, `divCRev` a scalar and then a vector; `mulCInPlace`
is `mul (srcA, srcDst, len)`. -/
inductive IppOp where
  | abs
  | addVec
  | addC
  | subVec
  | subC
  | subCRev
  | mulVec
  | mulC
  | mulCInPlace
  | divVec
  | divC
  | divCRev
  | threshold
  | ln
  | log10
  | exp
  deriving DecidableEq, Repr

namespace IntelIPP

/-- The assertion wrapped around the vendor call in each member function, as the list of
allowed statuses: `assertIppNoErr` is `[ippStsNoErr]`,
`assertAllowedStatus<ippStsNoErr, ippStsSingularity>` is both. The result is `none`
when the specialisation has no such member. -/
def allowedStatus (codes : IppStatusCodes) : IppElementType → IppOp → Option (List IppStatus)
  -- IntelIPP<float>
  | .float, .abs => some [codes.ippStsNoErr]
  | .float, .addVec => some [codes.ippStsNoErr]
  | .float, .addC => some [codes.ippStsNoErr]
  | .float, .subVec => some [codes.ippStsNoErr]
  | .float, .subC => some [codes.ippStsNoErr]
  | .float, .subCRev => some [codes.ippStsNoErr]
  | .float, .mulVec => some [codes.ippStsNoErr]
  | .float, .mulC => some [codes.ippStsNoErr]
  | .float, .mulCInPlace => some [codes.ippStsNoErr]
  | .float, .divVec => some [codes.ippStsNoErr]
  | .float, .divC => some [codes.ippStsNoErr]
  | .float, .divCRev => some [codes.ippStsNoErr]
  | .float, .threshold => some [codes.ippStsNoErr]
  | .float, .ln => some [codes.ippStsNoErr, codes.ippStsSingularity]
  | .float, .log10 => some [codes.ippStsNoErr, codes.ippStsSingularity]
  | .float, .exp => some [codes.ippStsNoErr]
  -- IntelIPP<double>
  | .double, .abs => some [codes.ippStsNoErr]
  | .double, .addVec => some [codes.ippStsNoErr]
  | .double, .addC => some [codes.ippStsNoErr]
  | .double, .subVec => some [codes.ippStsNoErr]
  | .double, .subC => some [codes.ippStsNoErr]
  | .double, .subCRev => some [codes.ippStsNoErr]
  | .double, .mulVec => some [codes.ippStsNoErr]
  | .double, .mulC => some [codes.ippStsNoErr]
  | .double, .mulCInPlace => some [codes.ippStsNoErr]
  | .double, .divVec => some [codes.ippStsNoErr]
  | .double, .divC => some [codes.ippStsNoErr]
  | .double, .divCRev => none
  | .double, .threshold => some [codes.ippStsNoErr]
  | .double, .ln => some [codes.ippStsNoErr, codes.ippStsSingularity]
  | .double, .log10 => some [codes.ippStsNoErr, codes.ippStsSingularity]
  | .double, .exp => some [codes.ippStsNoErr]
  -- IntelIPP<std::complex<float>>
  | .complexFloat, .abs => some [codes.ippStsNoErr]
  | .complexFloat, .addVec => some [codes.ippStsNoErr]
  | .complexFloat, .addC => some [codes.ippStsNoErr]
  | .complexFloat, .subVec => some [codes.ippStsNoErr]
  | .complexFloat, .subC => some [codes.ippStsNoErr]
  | .complexFloat, .subCRev => some [codes.ippStsNoErr]
  | .complexFloat, .mulVec => some [codes.ippStsNoErr]
  | .complexFloat, .mulC => some [codes.ippStsNoErr]
  | .complexFloat, .divVec => some [codes.ippStsNoErr]
  | .complexFloat, .divC => some [codes.ippStsNoErr]
  | .complexFloat, _ => none
  -- IntelIPP<std::complex<double>>
  | .complexDouble, .abs => some [codes.ippStsNoErr]
  | .complexDouble, .addVec => some [codes.ippStsNoErr]
  | .complexDouble, .addC => some [codes.ippStsNoErr]
  | .complexDouble, .subVec => some [codes.ippStsNoErr]
  | .complexDouble, .subC => some [codes.ippStsNoErr]
  | .complexDouble, .subCRev => some [codes.ippStsNoErr]
  | .complexDouble, .mulVec => some [codes.ippStsNoErr]
  | .complexDouble, .mulC => some [codes.ippStsNoErr]
  | .complexDouble, .divVec => some [codes.ippStsNoErr]
  | .complexDouble, .divC => some [codes.ippStsNoErr]
  | .complexDouble, _ => none
  -- IntelIPP<int32_t>
  | .int32, .abs => some [codes.ippStsNoErr]
  | .int32, _ => none

/-- A member function of `IntelIPP<T>`: the vendor call has produced `result` (its
status and the memory it leaves), the assertion of the member checks the status. The
member completes with the memory of the vendor call, or aborts (`none`). -/
def call {α : Type} (codes : IppStatusCodes) (T : IppElementType) (op : IppOp)
    (result : IppStatus × Memory α) : Option (Memory α) := do
  let allowed ← allowedStatus codes T op
  assertAllowedStatus allowed result.1
  pure result.2

end IntelIPP

/-- The vendor routines behind the `sub` and `div` members for one element type
(`ippsSub_32f`, `ippsSub_64f`, `ippsSub_32fc`, `ippsSub_64fc` and so on). They
are external to the repository: each is a parameter that maps its arguments and the
memory to a status and the memory it leaves. -/
structure IppsRoutines (α : Type) where
  ippsSub : (pSrc1 pSrc2 pDst len : Nat) → Memory α → IppStatus × Memory α
  ippsSubC : (pSrc : Nat) → (val : α) → (pDst len : Nat) → Memory α → IppStatus × Memory α
  ippsSubCRev : (pSrc : Nat) → (val : α) → (pDst len : Nat) → Memory α → IppStatus × Memory α
  ippsDiv : (pSrc1 pSrc2 pDst len : Nat) → Memory α → IppStatus × Memory α
  ippsDivC : (pSrc : Nat) → (val : α) → (pDst len : Nat) → Memory α → IppStatus × Memory α
  ippsDivCRev : (pSrc : Nat) → (val : α) → (pDst len : Nat) → Memory α → IppStatus × Memory α

/-- The memory after `pDst[i] = f (pSrc1[i], pSrc2[i])` for `i < len`; the sources are
read before the destination is written, so the destination may be one of them. -/
def Memory.elementwise2 {α : Type} (f : α → α → α) (pSrc1 pSrc2 pDst len : Nat)
    (mem : Memory α) : Memory α :=
  Function.update mem pDst
    (List.zipWith f ((mem pSrc1).take len) ((mem pSrc2).take len) ++ (mem pDst).drop len)

/-- The memory after `pDst[i] = f (pSrc[i])` for `i < len`. -/
def Memory.elementwise1 {α : Type} (f : α → α) (pSrc pDst len : Nat) (mem : Memory α) :
    Memory α :=
  Function.update mem pDst (((mem pSrc).take len).map f ++ (mem pDst).drop len)

/-- The vendor conventions for the non-commutative routines, on buffers that hold at
least `len` elements: `ippsSub` and `ippsDiv (p1, p2)` compute `p2[i] op p1[i]`,
`ippsSubC` and `ippsDivC (src, val)` compute `src[i] op val`, `ippsSubCRev` and
`ippsDivCRev (src, val)` compute `val op src[i]`. -/
structure IppsRoutines.FollowsConventions {α : Type} [Sub α] [Div α] (ipps : IppsRoutines α) :
    Prop where
  ippsSub : ∀ p1 p2 dst len mem, len ≤ (mem p1).length → len ≤ (mem p2).length →
    len ≤ (mem dst).length →
    (ipps.ippsSub p1 p2 dst len mem).2 = mem.elementwise2 (fun x1 x2 => x2 - x1) p1 p2 dst len
  ippsSubC : ∀ src val dst len mem, len ≤ (mem src).length → len ≤ (mem dst).length →
    (ipps.ippsSubC src val dst len mem).2 = mem.elementwise1 (fun x => x - val) src dst len
  ippsSubCRev : ∀ src val dst len mem, len ≤ (mem src).length → len ≤ (mem dst).length →
    (ipps.ippsSubCRev src val dst len mem).2 = mem.elementwise1 (fun x => val - x) src dst len
  ippsDiv : ∀ p1 p2 dst len mem, len ≤ (mem p1).length → len ≤ (mem p2).length →
    len ≤ (mem dst).length →
    (ipps.ippsDiv p1 p2 dst len mem).2 = mem.elementwise2 (fun x1 x2 => x2 / x1) p1 p2 dst len
  ippsDivC : ∀ src val dst len mem, len ≤ (mem src).length → len ≤ (mem dst).length →
    (ipps.ippsDivC src val dst len mem).2 = mem.elementwise1 (fun x => x / val) src dst len
  ippsDivCRev : ∀ src val dst len mem, len ≤ (mem src).length → len ≤ (mem dst).length →
    (ipps.ippsDivCRev src val dst len mem).2 = mem.elementwise1 (fun x => val / x) src dst len

namespace IntelIPP

variable {α : Type}

/-- `sub (const T* srcA, const T* srcB, T* dst, int len)`:
`assertIppNoErr (ippsSub (srcB, srcA, dst, len))`. For the complex types the
pointers go through `fc`, a reinterpretation that leaves the address unchanged. -/
def sub (codes : IppStatusCodes) (ipps : IppsRoutines α) (T : IppElementType)
    (srcA srcB dst len : Nat) (mem : Memory α) : Option (Memory α) :=
  call codes T .subVec (ipps.ippsSub srcB srcA dst len mem)

/-- `sub (const T* srcA, T srcB, T* dst, int len)`:
`assertIppNoErr (ippsSubC (srcA, srcB, dst, len))`. -/
def subC (codes : IppStatusCodes) (ipps : IppsRoutines α) (T : IppElementType)
    (srcA : Nat) (srcB : α) (dst len : Nat) (mem : Memory α) : Option (Memory α) :=
  call codes T .subC (ipps.ippsSubC srcA srcB dst len mem)

/-- `sub (T srcA, const T* srcB, T* dst, int len)`:
`assertIppNoErr (ippsSubCRev (srcB, srcA, dst, len))`. -/
def subCRev (codes : IppStatusCodes) (ipps : IppsRoutines α) (T : IppElementType)
    (srcA : α) (srcB : Nat) (dst len : Nat) (mem : Memory α) : Option (Memory α) :=
  call codes T .subCRev (ipps.ippsSubCRev srcB srcA dst len mem)

/-- `div (const T* srcA, const T* srcB, T* dst, int len)`:
`assertIppNoErr (ippsDiv (srcB, srcA, dst, len))`. -/
def div (codes : IppStatusCodes) (ipps : IppsRoutines α) (T : IppElementType)
    (srcA srcB dst len : Nat) (mem : Memory α) : Option (Memory α) :=
  call codes T .divVec (ipps.ippsDiv srcB srcA dst len mem)

/-- `div (const T* srcA, T srcB, T* dst, int len)`:
`assertIppNoErr (ippsDivC (srcA, srcB, dst, len))`. -/
def divC (codes : IppStatusCodes) (ipps : IppsRoutines α) (T : IppElementType)
    (srcA : Nat) (srcB : α) (dst len : Nat) (mem : Memory α) : Option (Memory α) :=
  call codes T .divC (ipps.ippsDivC srcA srcB dst len mem)

/-- `div (float srcA, const float* srcB, float* dst, int len)`, a member of
`IntelIPP<float>` only: `assertIppNoErr (ippsDivCRev_32f (srcB, srcA, dst, len))`. -/
def divCRev (codes : IppStatusCodes) (ipps : IppsRoutines α) (T : IppElementType)
    (srcA : α) (srcB : Nat) (dst len : Nat) (mem : Memory α) : Option (Memory α) :=
  call codes T .divCRev (ipps.ippsDivCRev srcB srcA dst len mem)

end IntelIPP

/-! ## The IPP-backed bulk evaluation of the subtraction nodes (Subtract.h) -/

/-- Modelled from the spec: the member `evalNextVectorOpInExpressionChain (dst)` of a
container, which is part of the container layer and not of the embedded sources. A
bulk evaluation returns the source pointer usable by the caller; a container has
nothing to evaluate, writes nothing and returns its own `data()`. -/
def Vctr.evalNextVectorOpInExpressionChain {α : Type} (v : Vctr α) (_dst : Nat) : Nat :=
  v.data

/-- The IPP-backed overload of `evalNextVectorOpInExpressionChain (dst)` of the three
subtraction nodes, with `Expression::IPP` being `IntelIPP<value_type>`:
* `SubtractVectors`: `IPP::sub (srcA.eval (dst), srcB.eval (dst), dst, size())`,
* `SubtractVecFromSingle`: `IPP::sub (single, src.eval (dst), dst, sizeToInt (size()))`,
* `SubtractSingleFromVec`: `IPP::sub (src.eval (dst), single, dst, sizeToInt (size()))`,
each followed by `return dst`. The operands are evaluated left to right; the memory is
threaded through the calls, the result is the final memory and the returned pointer,
or `none` when an adapter aborts. -/
def Src.evalNextVectorOpInExpressionChain {α : Type} (codes : IppStatusCodes)
    (ipps : IppsRoutines α) (T : IppElementType) :
    Src α → Nat → Memory α → Option (Memory α × Nat)
  | .vctr v, dst, mem => some (mem, v.evalNextVectorOpInExpressionChain dst)
  | .SubtractVectors srcA srcB, dst, mem => do
      let (memA, pA) ← srcA.evalNextVectorOpInExpressionChain codes ipps T dst mem
      let (memB, pB) ← srcB.evalNextVectorOpInExpressionChain codes ipps T dst memA
      let mem' ← IntelIPP.sub codes ipps T pA pB dst (Src.SubtractVectors srcA srcB).size memB
      pure (mem', dst)
  | .SubtractVecFromSingle single src, dst, mem => do
      let (memS, pS) ← src.evalNextVectorOpInExpressionChain codes ipps T dst mem
      let mem' ← IntelIPP.subCRev codes ipps T single pS dst
        (Src.SubtractVecFromSingle single src).size memS
      pure (mem', dst)
  | .SubtractSingleFromVec src single, dst, mem => do
      let (memS, pS) ← src.evalNextVectorOpInExpressionChain codes ipps T dst mem
      let mem' ← IntelIPP.subC codes ipps T pS single dst
        (Src.SubtractSingleFromVec src single).size memS
      pure (mem', dst)

/-! ## The preference gate of the two bulk overloads (Subtract.h) -/

/-- The two tag types `detail::preferIfIppAndAccelerateAreAvailable` and
`detail::dontPreferIfIppAndAccelerateAreAvailable` passed to the `suitableFor...`
concepts. -/
inductive Preference where
  | preferIfIppAndAccelerateAreAvailable
  | dontPreferIfIppAndAccelerateAreAvailable
  deriving DecidableEq, Repr

/-- The vendor libraries of a build configuration. -/
structure BuildConfig where
  hasIPP : Bool
  hasAccelerate : Bool
  deriving DecidableEq, Repr

/-- The numeric domain of the element type `value_type`. -/
inductive ElementDomain where
  | realFloat
  | complexFloat
  | other
  deriving DecidableEq, Repr

/-- Modelled from the spec: the preference part of the `suitableFor...` concepts, which
are not part of the embedded sources. A node exposes one vendor's bulk path only when
the other vendor's evaluation is unavailable or deprioritized: an overload tagged
`dontPreferIfIppAndAccelerateAreAvailable` is withdrawn when both libraries are
available, an overload tagged `preferIfIppAndAccelerateAreAvailable` stays. -/
def Preference.admits (cfg : BuildConfig) : Preference → Bool
  | .preferIfIppAndAccelerateAreAvailable => true
  | .dontPreferIfIppAndAccelerateAreAvailable => !(cfg.hasIPP && cfg.hasAccelerate)

/-- Modelled from the spec: the concepts `is::suitableForAccelerateRealFloatBinaryVectorOp`
and `is::suitableForAccelerateRealFloatVectorOp`, not part of the embedded sources: the
build has Accelerate, every operand offers the bulk evaluation (`operandsOffer`), the
element type is a real float, and the preference admits the overload. -/
def suitableForAccelerateRealFloatVectorOp (cfg : BuildConfig) (operandsOffer : Bool)
    (domain : ElementDomain) (preference : Preference) : Bool :=
  cfg.hasAccelerate && operandsOffer && decide (domain = .realFloat) && preference.admits cfg

/-- Modelled from the spec: the concept `is::suitableForAccelerateRealOrComplexFloatVectorOp`,
not part of the embedded sources: as above for a real or complex float element type. -/
def suitableForAccelerateRealOrComplexFloatVectorOp (cfg : BuildConfig) (operandsOffer : Bool)
    (domain : ElementDomain) (preference : Preference) : Bool :=
  cfg.hasAccelerate && operandsOffer && decide (domain ≠ .other) && preference.admits cfg

/-- Modelled from the spec: the concepts `is::suitableForIppRealOrComplexFloatVectorOp` and
`is::suitableForIppRealOrComplexComplexFloatBinaryVectorOp`, not part of the embedded
sources: the build has IPP, every operand offers the bulk evaluation, the element type
is a real or complex float, and the preference admits the overload. -/
def suitableForIppRealOrComplexFloatVectorOp (cfg : BuildConfig) (operandsOffer : Bool)
    (domain : ElementDomain) (preference : Preference) : Bool :=
  cfg.hasIPP && operandsOffer && decide (domain ≠ .other) && preference.admits cfg

/-- The three subtraction class templates. -/
inductive SubtractShape where
  | SubtractVectors
  | SubtractVecFromSingle
  | SubtractSingleFromVec
  deriving DecidableEq, Repr

/-- The `requires` clause of the Accelerate-backed overload of
`evalNextVectorOpInExpressionChain` in each class, always with the tag
`detail::dontPreferIfIppAndAccelerateAreAvailable`. -/
def SubtractShape.accelerateOverloadEnabled (cfg : BuildConfig) (operandsOffer : Bool)
    (domain : ElementDomain) : SubtractShape → Bool
  | .SubtractVectors =>
      suitableForAccelerateRealFloatVectorOp cfg operandsOffer domain
        .dontPreferIfIppAndAccelerateAreAvailable
  | .SubtractVecFromSingle =>
      suitableForAccelerateRealFloatVectorOp cfg operandsOffer domain
        .dontPreferIfIppAndAccelerateAreAvailable
  | .SubtractSingleFromVec =>
      suitableForAccelerateRealOrComplexFloatVectorOp cfg operandsOffer domain
        .dontPreferIfIppAndAccelerateAreAvailable

/-- The `requires` clause of the IPP-backed overload of
`evalNextVectorOpInExpressionChain` in each class, always with the tag
`detail::preferIfIppAndAccelerateAreAvailable`. -/
def SubtractShape.ippOverloadEnabled (cfg : BuildConfig) (operandsOffer : Bool)
    (domain : ElementDomain) : SubtractShape → Bool
  | .SubtractVectors =>
      suitableForIppRealOrComplexFloatVectorOp cfg operandsOffer domain
        .preferIfIppAndAccelerateAreAvailable
  | .SubtractVecFromSingle =>
      suitableForIppRealOrComplexFloatVectorOp cfg operandsOffer domain
        .preferIfIppAndAccelerateAreAvailable
  | .SubtractSingleFromVec =>
      suitableForIppRealOrComplexFloatVectorOp cfg operandsOffer domain
        .preferIfIppAndAccelerateAreAvailable

/-! ## Decibel conversion (DSP/Decibels.h) -/

/-- The constant wrappers `dBFS : Constant<20>`, `dBVoltage : Constant<20>` and
`dBPower : Constant<10>`. -/
inductive DecibelConstant where
  | dBFS
  | dBVoltage
  | dBPower
  deriving DecidableEq, Repr

/-- The member `value` of the three constant wrappers. -/
def DecibelConstant.value : DecibelConstant → Int
  | .dBFS => 20
  | .dBVoltage => 20
  | .dBPower => 10

/-- Modelled from the spec: `operator[]` of the node `Log10`, which is not part of the
embedded sources: the elementwise `log10 (src[i])`. The function `log10` of the element
type is a parameter. -/
def Log10 {α : Type} (log10 : α → α) (src : Nat → Option α) : Nat → Option α :=
  fun i => (src i).map log10

/-- Modelled from the spec: `operator[]` of the node `MultiplyVecByConstant`, which is
not part of the embedded sources: the elementwise `src[i] * constant`. -/
def MultiplyVecByConstant {α : Type} [Mul α] (src : Nat → Option α) (constant : α) :
    Nat → Option α :=
  fun i => (src i).map (fun x => x * constant)

/-- Modelled from the spec: `operator[]` of the node `ClampLowByConstant`, which is not
part of the embedded sources: the elementwise `max (src[i], constant)`. -/
def ClampLowByConstant {α : Type} [Max α] (src : Nat → Option α) (constant : α) :
    Nat → Option α :=
  fun i => (src i).map (fun x => max x constant)

/-- The alias `MagToDb<extent, SrcType, DecibelConstant, MinDb>`:
`ClampLowByConstant<MultiplyVecByConstant<Log10<SrcType>, DecibelConstant>, MinDb>`. -/
def MagToDb {α : Type} [Mul α] [Max α] [IntCast α] (log10 : α → α) (src : Nat → Option α)
    (decibelConstant : DecibelConstant) (minDb : Int) : Nat → Option α :=
  ClampLowByConstant (MultiplyVecByConstant (Log10 log10 src) (decibelConstant.value : α))
    (minDb : α)

/-- The default of the template parameter `minDb` of `magToDb`. -/
def magToDbDefaultMinDb : Int := -100

/-- The chain builder `magToDb<DecibelConstant, minDb>` applied to a source. -/
def magToDb {α : Type} [Mul α] [Max α] [IntCast α] (log10 : α → α)
    (decibelConstant : DecibelConstant) (minDb : Int) (src : Nat → Option α) :
    Nat → Option α :=
  MagToDb log10 src decibelConstant minDb

/-! ## Rounding sizes to multiples of a power of two (SIMDHelpers.h) -/

namespace detail

/-- The standard function `std::bit_width`: the number of bits needed to represent
`value`, zero for zero. -/
def bit_width (value : Nat) : Nat :=
  if value = 0 then 0 else Nat.log2 value + 1

/-- `detail::previousMultipleOf<value> (numElements)`: `numElements & mask` with
`mask = size_t (-1) << (std::bit_width (value) - 1)`, all in `size_t` of `sizeBits` bits. -/
def previousMultipleOf (sizeBits value numElements : Nat) : Nat :=
  let numMaskBits := bit_width value - 1
  let allBitsOne := 2 ^ sizeBits - 1
  let mask := (allBitsOne <<< numMaskBits) % 2 ^ sizeBits
  numElements &&& mask

/-- `detail::nextMultipleOf<value> (numElements)`: `(numElements + value - 1) & -value`
in `size_t` of `sizeBits` bits: the sum, the decrement and the negation each wrap
modulo `2 ^ sizeBits`. -/
def nextMultipleOf (sizeBits value numElements : Nat) : Nat :=
  (((numElements + value) % 2 ^ sizeBits + (2 ^ sizeBits - 1)) % 2 ^ sizeBits)
    &&& ((2 ^ sizeBits - value) % 2 ^ sizeBits)

end detail

/-! ## Storage info of a vector with an aligned allocator (SIMDHelpers.h) -/

/-- The specialisation
`StorageInfo<std::vector<ElementType, AlignedAllocator<ElementType, alignmentInBytes>>>`:
no data members. `maxSIMDRegisterSize` is `Config::maxSIMDRegisterSize`. -/
structure StorageInfoAlignedVector (alignmentInBytes maxSIMDRegisterSize : Nat) : Type where
  mk ::

/-- The static constexpr members of the specialisation:
`dataIsSIMDAligned = alignmentInBytes == Config::maxSIMDRegisterSize` and
`hasSIMDExtendedStorage = true`. -/
instance (alignmentInBytes maxSIMDRegisterSize : Nat) :
    IsConstexprStorageInfo (StorageInfoAlignedVector alignmentInBytes maxSIMDRegisterSize) where
  dataIsSIMDAligned := alignmentInBytes == maxSIMDRegisterSize
  hasSIMDExtendedStorage := true

/-! ## The gates of the AVX register accessors of the subtraction nodes (Subtract.h) -/

/-- The numeric domain of the common element type of an expression. -/
inductive NumericDomain where
  | floatingPoint
  | signedInt
  | unsignedInt
  | other
  deriving DecidableEq, Repr

namespace CommonElement

/-- Modelled from the spec: the member `Expression::CommonElement::isFloatingPoint`, declared
outside the embedded sources: the common element type is a floating point type. -/
def isFloatingPoint : NumericDomain → Bool
  | .floatingPoint => true
  | _ => false

/-- Modelled from the spec: the member `Expression::CommonElement::isInt`, declared outside
the embedded sources: the common element type is an integer type, signed or unsigned. -/
def isInt : NumericDomain → Bool
  | .signedInt => true
  | .unsignedInt => true
  | _ => false

/-- Modelled from the spec: the member `Expression::CommonElement::isUnsigned`, declared
outside the embedded sources: the common element type is an unsigned integer type. -/
def isUnsigned : NumericDomain → Bool
  | .unsignedInt => true
  | _ => false

end CommonElement

/-- The `requires` clause of the first `getAVX` overload (target avx) of each subtraction
class. `operandsHaveGetAVX` is `has::getAVX` of every vector operand and
`allElementTypesSame` is `Expression::allElementTypesSame`. -/
def SubtractShape.getAVXFloatEnabled (arch : Arch) (operandsHaveGetAVX allElementTypesSame : Bool)
    (domain : NumericDomain) : SubtractShape → Bool
  | .SubtractVectors =>
      arch.archX64 && operandsHaveGetAVX && CommonElement.isFloatingPoint domain
  | .SubtractVecFromSingle =>
      arch.archX64 && operandsHaveGetAVX && allElementTypesSame
        && CommonElement.isFloatingPoint domain
  | .SubtractSingleFromVec =>
      arch.archX64 && operandsHaveGetAVX && allElementTypesSame
        && CommonElement.isFloatingPoint domain

/-- The `requires` clause of the second `getAVX` overload (target avx2) of each
subtraction class: `isUnsigned` in `SubtractVectors`, `isInt` in the two scalar shapes. -/
def SubtractShape.getAVXIntEnabled (arch : Arch) (operandsHaveGetAVX allElementTypesSame : Bool)
    (domain : NumericDomain) : SubtractShape → Bool
  | .SubtractVectors =>
      arch.archX64 && operandsHaveGetAVX && CommonElement.isUnsigned domain
  | .SubtractVecFromSingle =>
      arch.archX64 && operandsHaveGetAVX && allElementTypesSame && CommonElement.isInt domain
  | .SubtractSingleFromVec =>
      arch.archX64 && operandsHaveGetAVX && allElementTypesSame && CommonElement.isInt domain

/-- Whether the class has a `getAVX` member for the instantiation: one of the two
overloads is enabled. -/
def SubtractShape.hasGetAVX (arch : Arch) (operandsHaveGetAVX allElementTypesSame : Bool)
    (domain : NumericDomain) (shape : SubtractShape) : Bool :=
  shape.getAVXFloatEnabled arch operandsHaveGetAVX allElementTypesSame domain
    || shape.getAVXIntEnabled arch operandsHaveGetAVX allElementTypesSame domain

/-! ## Decibel to magnitude conversion (DSP/Decibels.h) -/

namespace detail

/-- The member `detail::InvertedConstant<C>::value`: `1.0 / double (C::value)`. -/
def InvertedConstant.value {α : Type} [One α] [Div α] [IntCast α] (C : DecibelConstant) : α :=
  1 / (C.value : α)

end detail

/-- Modelled from the spec: `operator[]` of the node `PowConstantBase`, which is not part
of the embedded sources: the elementwise `pow (base, src[i])`, as the documentation of
`dbToMag` describes the calculation. The function `pow` of the element type is a
parameter. -/
def PowConstantBase {α : Type} (pow : α → α → α) (src : Nat → Option α) (base : α) :
    Nat → Option α :=
  fun i => (src i).map (fun x => pow base x)

/-- The alias `DBToMag<extent, SrcType, DecibelConstant>`:
`PowConstantBase<MultiplyVecByConstant<SrcType, detail::InvertedConstant<DecibelConstant>>,
Constant<10>>`. -/
def DBToMag {α : Type} [Mul α] [One α] [Div α] [IntCast α] (pow : α → α → α)
    (src : Nat → Option α) (decibelConstant : DecibelConstant) : Nat → Option α :=
  PowConstantBase pow (MultiplyVecByConstant src (detail.InvertedConstant.value decibelConstant))
    ((10 : Int) : α)

/-- The chain builder `dbToMag<DecibelConstant>` applied to a source. -/
def dbToMag {α : Type} [Mul α] [One α] [Div α] [IntCast α] (pow : α → α → α)
    (decibelConstant : DecibelConstant) (src : Nat → Option α) : Nat → Option α :=
  DBToMag pow src decibelConstant

/-! ## Sub-spans of containers (exercised by test/TestCases/VctrBaseMemberFunctions.cpp) -/

/-- Modelled from the spec: the members `subSpan<startIdx>()` and `subSpan (startIdx)` of
a container or span, which belong to the container layer and are not part of the
embedded sources; only their test is. The sub-span is the slice of the source that
starts at `startIdx` and runs to its end, seen here as the list of the elements it
views; a start index past the end is a failed assertion. -/
def subSpan {α : Type} (v : List α) (startIdx : Nat) : Option (List α) := do
  VCTR_ASSERT (decide (startIdx ≤ v.length))
  pure (v.drop startIdx)

/-- Modelled from the spec: the members `subSpan<startIdx, numElements>()` and
`subSpan (startIdx, numElements)`, not part of the embedded sources: the slice of
`numElements` elements that starts at `startIdx`; a window that does not fit the source
is a failed assertion. -/
def subSpanOfLength {α : Type} (v : List α) (startIdx numElements : Nat) : Option (List α) := do
  VCTR_ASSERT (decide (startIdx + numElements ≤ v.length))
  pure ((v.drop startIdx).take numElements)

/-! ## The IPP threshold adapters (PlatformVectorOps/IntelIPP.h) -/

/-- The vendor type `IppCmpOp`. -/
inductive IppCmpOp where
  | ippCmpLess
  | ippCmpLessEq
  | ippCmpEq
  | ippCmpGreaterEq
  | ippCmpGreater
  deriving DecidableEq, Repr

/-- The vendor convention for `ippsThreshold (pSrc, pDst, len, level, ippCmpLess)`, on
buffers that hold at least `len` elements: values less than `level` are replaced by
`level`, the others are copied. -/
def ThresholdFollowsConvention {α : Type} [LT α] [DecidableRel (LT.lt : α → α → Prop)]
    (ippsThreshold : Nat → Nat → Nat → α → IppCmpOp → Memory α → IppStatus × Memory α) : Prop :=
  ∀ src dst len level mem, len ≤ (mem src).length → len ≤ (mem dst).length →
    (ippsThreshold src dst len level .ippCmpLess mem).2
      = mem.elementwise1 (fun x => if x < level then level else x) src dst len

namespace IntelIPP

/-- `IntelIPP<float>::threshold (const float* src, float thresh, float* dst, int len)`:
`assertIppNoErr (ippsThreshold_32f (src, dst, len, thresh, ippCmpLess))`. `F` is the type
float; the vendor routine is a parameter. -/
def thresholdFloat {F : Type} (codes : IppStatusCodes)
    (ippsThreshold_32f : Nat → Nat → Nat → F → IppCmpOp → Memory F → IppStatus × Memory F)
    (src : Nat) (thresh : F) (dst len : Nat) (mem : Memory F) : Option (Memory F) :=
  call codes .float .threshold (ippsThreshold_32f src dst len thresh .ippCmpLess mem)

/-- `IntelIPP<double>::threshold (const double* src, float thresh, double* dst, int len)`:
`assertIppNoErr (ippsThreshold_64f (src, dst, len, thresh, ippCmpLess))`. `D` is the type
double and `F` the type float: the parameter `thresh` is a float, and the vendor routine
takes a double level, so `thresh` is widened by `floatToDouble`. -/
def thresholdDouble {D F : Type} (codes : IppStatusCodes)
    (ippsThreshold_64f : Nat → Nat → Nat → D → IppCmpOp → Memory D → IppStatus × Memory D)
    (floatToDouble : F → D)
    (src : Nat) (thresh : F) (dst len : Nat) (mem : Memory D) : Option (Memory D) :=
  call codes .double .threshold (ippsThreshold_64f src dst len (floatToDouble thresh) .ippCmpLess mem)

/-- The call `IntelIPP<double>::threshold (src, t, dst, len)` with a threshold `t` of the
element type double: the argument is converted to the parameter type float by
`doubleToFloat`. -/
def thresholdDoubleCall {D F : Type} (codes : IppStatusCodes)
    (ippsThreshold_64f : Nat → Nat → Nat → D → IppCmpOp → Memory D → IppStatus × Memory D)
    (floatToDouble : F → D) (doubleToFloat : D → F)
    (src : Nat) (t : D) (dst len : Nat) (mem : Memory D) : Option (Memory D) :=
  thresholdDouble codes ippsThreshold_64f floatToDouble src (doubleToFloat t) dst len mem

end IntelIPP

/-! ## Materialising an expression into a Vector (Containers/Vector.h) -/

/-- A source built from containers and subtraction nodes, as an expression. -/
def Src.toExpr {α : Type} : Src α → Expr α
  | .vctr v => .vctr v
  | .SubtractVectors srcA srcB => .SubtractVectors srcA.toExpr srcB.toExpr
  | .SubtractVecFromSingle single src => .SubtractVecFromSingle single src.toExpr
  | .SubtractSingleFromVec src single => .SubtractSingleFromVec src.toExpr single

/-- `Vector::resize (i)`: `storage.resize (i)` on the storage of the vector at address
`data`. The standard resize keeps the first `i` elements and appends value-initialised
elements up to the size `i`. -/
def Vector.resize {α : Type} [Zero α] (mem : Memory α) (data i : Nat) : Memory α :=
  Function.update mem data ((mem data).take i ++ List.replicate (i - (mem data).length) 0)

/-- Modelled from the spec: the member `assignExpressionTemplate (e)` of the container
layer, which is not part of the embedded sources. The assignment takes the bulk path
when the expression offers it (`bulk` holds the vendor library of the build, `none` when
the expression has no bulk evaluation) and `isNotAliased` confirms for the destination
that the path is safe; otherwise it falls back to the elementwise path. -/
def assignExpressionTemplate {α : Type} [Sub α]
    (bulk : Option (IppStatusCodes × IppsRoutines α × IppElementType))
    (vctrIsNotAliased : Vctr α → Nat → Bool) (e : Src α) (data : Nat) (mem : Memory α) :
    Option (Memory α) :=
  match bulk with
  | some (codes, ipps, T) =>
      if e.isNotAliased vctrIsNotAliased data then
        (e.evalNextVectorOpInExpressionChain codes ipps T data mem).map Prod.fst
      else assignElementwise e.toExpr data mem
  | none => assignElementwise e.toExpr data mem

/-- `Vector::operator= (const E& expression)` on the vector whose storage is at address
`data`: `resize (expression.size()); assignExpressionTemplate (expression)`. -/
def Vector.assign {α : Type} [Sub α] [Zero α]
    (bulk : Option (IppStatusCodes × IppsRoutines α × IppElementType))
    (vctrIsNotAliased : Vctr α → Nat → Bool) (data : Nat) (expression : Src α)
    (mem : Memory α) : Option (Memory α) :=
  assignExpressionTemplate bulk vctrIsNotAliased expression data
    (Vector.resize mem data (expression.toExpr.load mem).size)

/-- `Vector::Vector (Expression&& e)`: a new, empty vector, whose storage is at the fresh
address `data`, then `resize (e.size()); assignExpressionTemplate (e)`. -/
def Vector.ofExpression {α : Type} [Sub α] [Zero α]
    (bulk : Option (IppStatusCodes × IppsRoutines α × IppElementType))
    (vctrIsNotAliased : Vctr α → Nat → Bool) (data : Nat) (e : Src α)
    (mem : Memory α) : Option (Memory α) :=
  assignExpressionTemplate bulk vctrIsNotAliased e data
    (Vector.resize (Function.update mem data []) data (e.toExpr.load mem).size)

/-! ## Concrete sources used by the examples -/

namespace Examples

/-- An info with both flags set, as reported by aligned, padded storage. -/
def alignedInfo : StorageInfo := ⟨true, true⟩

/-- `a = [5, 3, 9]` at address 0. -/
def vecA : Src Int := .vctr ⟨0, [5, 3, 9], alignedInfo⟩

/-- `b = [2, 3, 4]` at address 32. -/
def vecB : Src Int := .vctr ⟨32, [2, 3, 4], alignedInfo⟩

/-- `[1, 2, 3]` at address 64. -/
def vec123 : Src Int := .vctr ⟨64, [1, 2, 3], alignedInfo⟩

/-- `w = [10, 20, 30]` at address 96. -/
def vecW : Src Int := .vctr ⟨96, [10, 20, 30], alignedInfo⟩

/-- The expression `(a - b) - w`: an expression minus a container. -/
def innerChain : Src Int := .SubtractVectors (.SubtractVectors vecA vecB) vecW

/-- The expression `((a - b) - w) - [1, 2, 3]`. -/
def outerChain : Src Int := .SubtractVectors innerChain vec123

/-- The memory holding `a`, `b`, `[1, 2, 3]` and `w` at their addresses, and a spare
buffer of three elements at address 200. -/
def memory : Memory Int := fun p =>
  if p = 0 then [5, 3, 9]
  else if p = 32 then [2, 3, 4]
  else if p = 64 then [1, 2, 3]
  else if p = 96 then [10, 20, 30]
  else if p = 200 then [0, 0, 0]
  else []

/-- Registers as lists of lanes, for the examples. -/
def laneRegisters : Registers := ⟨List Int, List Int, List Int⟩

/-- The x64 build. -/
def x64 : Arch := ⟨true, false⟩

/-- A node over `[1, 2, 3, 4, 5, 6, 7, 8]` with scalar, SSE (four lanes) and AVX (eight
lanes) access, as a container of 32-bit integers offers on an x64 build. -/
def x64Node : ExpressionNode Int laneRegisters where
  size := 8
  get := fun i => [1, 2, 3, 4, 5, 6, 7, 8][i]?
  getSSE := some (fun i => ([1, 2, 3, 4, 5, 6, 7, 8].drop (4 * i)).take 4)
  getAVX := some (fun i => ([1, 2, 3, 4, 5, 6, 7, 8].drop (8 * i)).take 8)
  getNeon := none
  evalNextVectorOpInExpressionChain := none

/-- Example values of the two vendor status constants. -/
def ippCodes : IppStatusCodes := ⟨0, 18⟩

/-- Vendor routines that follow the vendor conventions and always report success. -/
def referenceIpps {α : Type} [Sub α] [Div α] (codes : IppStatusCodes) : IppsRoutines α where
  ippsSub := fun p1 p2 dst len mem =>
    (codes.ippStsNoErr, mem.elementwise2 (fun x1 x2 => x2 - x1) p1 p2 dst len)
  ippsSubC := fun src val dst len mem =>
    (codes.ippStsNoErr, mem.elementwise1 (fun x => x - val) src dst len)
  ippsSubCRev := fun src val dst len mem =>
    (codes.ippStsNoErr, mem.elementwise1 (fun x => val - x) src dst len)
  ippsDiv := fun p1 p2 dst len mem =>
    (codes.ippStsNoErr, mem.elementwise2 (fun x1 x2 => x2 / x1) p1 p2 dst len)
  ippsDivC := fun src val dst len mem =>
    (codes.ippStsNoErr, mem.elementwise1 (fun x => x / val) src dst len)
  ippsDivCRev := fun src val dst len mem =>
    (codes.ippStsNoErr, mem.elementwise1 (fun x => val / x) src dst len)

/-- A memory of rationals: `[6, 8, 9]` at address 0, `[2, 4, 3]` at address 32 and a
destination of three elements at address 64. -/
def ratMemory : Memory ℚ := fun p =>
  if p = 0 then [6, 8, 9]
  else if p = 32 then [2, 4, 3]
  else if p = 64 then [0, 0, 0]
  else []

/-- The memory of floats (as rationals) holding `a = [5, 3, 9]` at address 0,
`b = [2, 3, 4]` at 32, `v = [1, 2, 3]` at 64, `w = [10, 20, 30]` at 96 and a spare buffer
of three elements at address 200. -/
def floatMemory : Memory ℚ := fun p =>
  if p = 0 then [5, 3, 9]
  else if p = 32 then [2, 3, 4]
  else if p = 64 then [1, 2, 3]
  else if p = 96 then [10, 20, 30]
  else if p = 200 then [0, 0, 0]
  else []

/-- The expression `(a - b) - w` over the containers of `floatMemory`. -/
def floatInnerChain : Src ℚ :=
  .SubtractVectors
    (.SubtractVectors (.vctr ⟨0, [5, 3, 9], alignedInfo⟩) (.vctr ⟨32, [2, 3, 4], alignedInfo⟩))
    (.vctr ⟨96, [10, 20, 30], alignedInfo⟩)

/-- The expression `((a - b) - w) - v` over the containers of `floatMemory`. -/
def floatOuterChain : Src ℚ :=
  .SubtractVectors floatInnerChain (.vctr ⟨64, [1, 2, 3], alignedInfo⟩)

/-- A vector of 100 elements, `v[i] = i`. -/
def vector100 : List Int := (List.range 100).map Int.ofNat

/-- A threshold routine that follows the vendor convention and always reports success. -/
def referenceThreshold {α : Type} [LT α] [DecidableRel (LT.lt : α → α → Prop)]
    (codes : IppStatusCodes) :
    Nat → Nat → Nat → α → IppCmpOp → Memory α → IppStatus × Memory α :=
  fun src dst len level _ mem =>
    (codes.ippStsNoErr, mem.elementwise1 (fun x => if x < level then level else x) src dst len)

/-- The conversion of a double with an integer value to float, for magnitudes up to
`2 ^ 25`: integers up to `2 ^ 24` are floats; above, the floats are the even integers and
an odd integer is a tie, rounded to the neighbour that is a multiple of 4. Larger
magnitudes are not used and are left unchanged. -/
def doubleToFloat (x : Int) : Int :=
  if x.natAbs ≤ 2 ^ 24 then x
  else if 2 ^ 25 < x.natAbs then x
  else if x % 2 = 0 then x
  else if (x + 1) % 4 = 0 then x + 1
  else x - 1

/-- The conversion of a float with an integer value to double, which is exact. -/
def floatToDouble (x : Int) : Int := x

/-- A memory of doubles with integer values: `[16777216]` at address 0 and a destination
of one element at address 32. -/
def doubleMemory : Memory Int := fun p =>
  if p = 0 then [16777216]
  else if p = 32 then [0]
  else []

end Examples

/-! ## Helper lemmas -/

namespace Src

variable {α : Type}

/-- Inside a source whose sizes agree, every index below `size()` can be read. -/
theorem get_isSome_of_lt [Sub α] (s : Src α) (h : s.sizesAgree = true) (i : Nat)
    (hi : i < s.size) : ∃ x, s.get i = some x := by
  induction s with
  | vctr v =>
      refine ⟨v.storage[i], ?_⟩
      simp only [size] at hi
      simp [get, hi]
  | SubtractVectors srcA srcB iha ihb =>
      simp only [sizesAgree, Bool.and_eq_true, beq_iff_eq] at h
      obtain ⟨⟨ha, hb⟩, hsz⟩ := h
      simp only [size] at hi
      obtain ⟨x, hx⟩ := iha ha hi
      obtain ⟨y, hy⟩ := ihb hb (hsz ▸ hi)
      exact ⟨x - y, by simp [get, hx, hy]⟩
  | SubtractVecFromSingle single src ih =>
      simp only [sizesAgree] at h
      simp only [size] at hi
      obtain ⟨y, hy⟩ := ih h hi
      exact ⟨single - y, by simp [get, hy]⟩
  | SubtractSingleFromVec src single ih =>
      simp only [sizesAgree] at h
      simp only [size] at hi
      obtain ⟨x, hx⟩ := ih h hi
      exact ⟨x - single, by simp [get, hx]⟩

/-- The aligned flag of a source is the conjunction of the flags of its leaves. -/
theorem dataIsSIMDAligned_eq_all (s : Src α) :
    IsStorageInfo.dataIsSIMDAligned s.getStorageInfo
      = s.leaves.all (fun v => v.storageInfo.dataIsSIMDAligned) := by
  induction s with
  | vctr v => simp [getStorageInfo, leaves, IsStorageInfo.dataIsSIMDAligned]
  | SubtractVectors srcA srcB iha ihb =>
      simp only [getStorageInfo, leaves, List.all_append, ← iha, ← ihb]
      rfl
  | SubtractVecFromSingle single src ih => simpa [getStorageInfo, leaves] using ih
  | SubtractSingleFromVec src single ih => simpa [getStorageInfo, leaves] using ih

/-- The extended-storage flag of a source is the conjunction of the flags of its leaves. -/
theorem hasSIMDExtendedStorage_eq_all (s : Src α) :
    IsStorageInfo.hasSIMDExtendedStorage s.getStorageInfo
      = s.leaves.all (fun v => v.storageInfo.hasSIMDExtendedStorage) := by
  induction s with
  | vctr v => simp [getStorageInfo, leaves, IsStorageInfo.hasSIMDExtendedStorage]
  | SubtractVectors srcA srcB iha ihb =>
      simp only [getStorageInfo, leaves, List.all_append, ← iha, ← ihb]
      rfl
  | SubtractVecFromSingle single src ih => simpa [getStorageInfo, leaves] using ih
  | SubtractSingleFromVec src single ih => simpa [getStorageInfo, leaves] using ih

end Src


namespace Expr

variable {α : Type}

end Expr

section Claims

variable {α : Type}

/-- C1: for equal-size operands `a`, `b` (themselves built through the operators),
`operator-` yields the vector-minus-vector node, and for every index `i` below its
size the scalar accessor of the node returns exactly `a[i] - b[i]`. -/
theorem SubtractVectors_get_eq_sub [Sub α] (a b : Src α) (ha : a.sizesAgree = true)
    (hb : b.sizesAgree = true) (hsize : a.size = b.size) :
    ∃ e, operator_minus a b = some e ∧
      ∀ i, i < e.size →
        ∃ x y, a.get i = some x ∧ b.get i = some y ∧ e.get i = some (x - y) := by
  refine ⟨Src.SubtractVectors a b, by simp [operator_minus, assertCommonSize, hsize], ?_⟩
  intro i hi
  simp only [Src.size] at hi
  obtain ⟨x, hx⟩ := Src.get_isSome_of_lt a ha i hi
  obtain ⟨y, hy⟩ := Src.get_isSome_of_lt b hb i (hsize ▸ hi)
  exact ⟨x, y, hx, hy, by simp [Src.get, hx, hy]⟩

/-- C1, the concrete scenario: `[5,3,9] - [2,3,4] = [3,0,5]`. -/
theorem SubtractVectors_get_eq_sub_witness :
    (∃ e, operator_minus Examples.vecA Examples.vecB = some e ∧
      ∀ i, i < e.size →
        ∃ x y, Examples.vecA.get i = some x ∧ Examples.vecB.get i = some y ∧
          e.get i = some (x - y)) ∧
    operator_minus Examples.vecA Examples.vecB
      = some (Src.SubtractVectors Examples.vecA Examples.vecB) ∧
    (List.range 3).map (Src.SubtractVectors Examples.vecA Examples.vecB).get
      = [some 3, some 0, some 5] :=
  ⟨SubtractVectors_get_eq_sub Examples.vecA Examples.vecB rfl rfl rfl, rfl, by decide⟩

/-- C2: the two scalar shapes keep the operand order: for every scalar `s`, source `v`
and index `i` below `v.size()`, `(s - v)[i] = s - v[i]` and `(v - s)[i] = v[i] - s`. -/
theorem scalar_shapes_get_eq_sub [Sub α] (s : α) (v : Src α) (hv : v.sizesAgree = true)
    (i : Nat) (hi : i < v.size) :
    ∃ x, v.get i = some x ∧
      (operator_minus_single_vec s v).get i = some (s - x) ∧
      (operator_minus_vec_single v s).get i = some (x - s) := by
  obtain ⟨x, hx⟩ := Src.get_isSome_of_lt v hv i hi
  exact ⟨x, hx, by simp [operator_minus_single_vec, Src.get, hx],
    by simp [operator_minus_vec_single, Src.get, hx]⟩

/-- C2, the concrete scenario: `10 - [1,2,3] = [9,8,7]` and `[1,2,3] - 10 = [-9,-8,-7]`. -/
theorem scalar_shapes_get_eq_sub_witness :
    (∃ x, Examples.vec123.get 1 = some x ∧
      (operator_minus_single_vec 10 Examples.vec123).get 1 = some (10 - x) ∧
      (operator_minus_vec_single Examples.vec123 10).get 1 = some (x - 10)) ∧
    (List.range 3).map (operator_minus_single_vec 10 Examples.vec123).get
      = [some 9, some 8, some 7] ∧
    (List.range 3).map (operator_minus_vec_single Examples.vec123 10).get
      = [some (-9), some (-8), some (-7)] :=
  ⟨scalar_shapes_get_eq_sub 10 Examples.vec123 rfl 1 (by decide), by decide, by decide⟩

/-- C3: for operands `a`, `b` of common size `n`, `operator-` builds a node whose `size()`
is `n = a.size() = b.size()`; for every scalar `s` and source `v`, `(s - v).size()` and
`(v - s).size()` equal `v.size()`. -/
theorem subtract_size_eq (a b : Src α) (n : Nat) (ha : a.size = n) (hb : b.size = n)
    (s : α) (v : Src α) :
    (∃ e, operator_minus a b = some e ∧ e.size = n ∧ e.size = a.size ∧ e.size = b.size) ∧
    (operator_minus_single_vec s v).size = v.size ∧
    (operator_minus_vec_single v s).size = v.size := by
  refine ⟨⟨Src.SubtractVectors a b, ?_, ?_, ?_, ?_⟩, rfl, rfl⟩
  · simp [operator_minus, assertCommonSize, ha, hb]
  · simpa [Src.size] using ha
  · simp [Src.size]
  · simp [Src.size, ha, hb]

/-- C3 at `[5,3,9] - [2,3,4]`, `10 - [1,2,3]` and `[1,2,3] - 10`: all of size 3. -/
theorem subtract_size_eq_witness :
    Examples.vecA.size = 3 ∧ Examples.vecB.size = 3 ∧
    ((∃ e, operator_minus Examples.vecA Examples.vecB = some e ∧ e.size = 3 ∧
        e.size = Examples.vecA.size ∧ e.size = Examples.vecB.size) ∧
      (operator_minus_single_vec 10 Examples.vec123).size = Examples.vec123.size ∧
      (operator_minus_vec_single Examples.vec123 10).size = Examples.vec123.size) :=
  ⟨rfl, rfl, subtract_size_eq Examples.vecA Examples.vecB 3 rfl rfl 10 Examples.vec123⟩

/-! ## Storage info combination -/

/-- C4: combining two storage infos is the logical AND field by field, for the primary
template and for the constexpr specialisation alike, and the storage info of a
vector-minus-vector node is this combination of the infos of its two operands. -/
theorem CombinedStorageInfo_fieldwise_and {InfoA InfoB StaticA StaticB : Type}
    [IsStorageInfo InfoA] [IsStorageInfo InfoB]
    [IsConstexprStorageInfo StaticA] [IsConstexprStorageInfo StaticB]
    (A : InfoA) (B : InfoB) (srcA srcB : Src α) :
    (CombinedStorageInfo.combine A B).dataIsSIMDAligned
        = (IsStorageInfo.dataIsSIMDAligned A && IsStorageInfo.dataIsSIMDAligned B) ∧
    (CombinedStorageInfo.combine A B).hasSIMDExtendedStorage
        = (IsStorageInfo.hasSIMDExtendedStorage A && IsStorageInfo.hasSIMDExtendedStorage B) ∧
    IsConstexprStorageInfo.dataIsSIMDAligned (CombinedStorageInfoConstexpr StaticA StaticB)
        = (IsConstexprStorageInfo.dataIsSIMDAligned StaticA
            && IsConstexprStorageInfo.dataIsSIMDAligned StaticB) ∧
    IsConstexprStorageInfo.hasSIMDExtendedStorage (CombinedStorageInfoConstexpr StaticA StaticB)
        = (IsConstexprStorageInfo.hasSIMDExtendedStorage StaticA
            && IsConstexprStorageInfo.hasSIMDExtendedStorage StaticB) ∧
    (Src.SubtractVectors srcA srcB).getStorageInfo
        = .ofSubtractVectors
            (CombinedStorageInfo.combine srcA.getStorageInfo srcB.getStorageInfo) :=
  ⟨rfl, rfl, rfl, rfl, rfl⟩

/-- C5: for every expression tree built from the three subtract shapes over memory-backed
leaves, the storage info of the root reports `hasSIMDExtendedStorage` (respectively
`dataIsSIMDAligned`) true if and only if every leaf of the tree reports it true. -/
theorem storageInfo_true_iff_all_leaves (s : Src α) :
    (IsStorageInfo.hasSIMDExtendedStorage s.getStorageInfo = true ↔
      ∀ v ∈ s.leaves, v.storageInfo.hasSIMDExtendedStorage = true) ∧
    (IsStorageInfo.dataIsSIMDAligned s.getStorageInfo = true ↔
      ∀ v ∈ s.leaves, v.storageInfo.dataIsSIMDAligned = true) := by
  rw [Src.hasSIMDExtendedStorage_eq_all, Src.dataIsSIMDAligned_eq_all]
  simp [List.all_eq_true]

/-- C6: storage info combination is commutative and associative: `combine a b` and
`combine b a` carry the same two booleans, and so do `combine (combine a b) c` and
`combine a (combine b c)`. -/
theorem CombinedStorageInfo_comm_assoc {InfoA InfoB InfoC : Type}
    [IsStorageInfo InfoA] [IsStorageInfo InfoB] [IsStorageInfo InfoC]
    (a : InfoA) (b : InfoB) (c : InfoC) :
    CombinedStorageInfo.combine a b = CombinedStorageInfo.combine b a ∧
    CombinedStorageInfo.combine (CombinedStorageInfo.combine a b) c
      = CombinedStorageInfo.combine a (CombinedStorageInfo.combine b c) := by
  constructor
  · simp [CombinedStorageInfo.combine, Bool.and_comm]
  · simp [CombinedStorageInfo.combine, IsStorageInfo.dataIsSIMDAligned,
      IsStorageInfo.hasSIMDExtendedStorage, Bool.and_assoc]

/-- C7: the constexpr specialisation and the primary (runtime) template agree: for
constexpr infos `StaticA`, `StaticB` and runtime infos `a`, `b` holding the same boolean
values, the static members of the specialisation equal the members computed by the
runtime constructor. -/
theorem CombinedStorageInfo_constexpr_eq_runtime {StaticA StaticB : Type}
    [IsConstexprStorageInfo StaticA] [IsConstexprStorageInfo StaticB]
    (a b : StorageInfo)
    (haAligned : a.dataIsSIMDAligned = IsConstexprStorageInfo.dataIsSIMDAligned StaticA)
    (haExtended : a.hasSIMDExtendedStorage = IsConstexprStorageInfo.hasSIMDExtendedStorage StaticA)
    (hbAligned : b.dataIsSIMDAligned = IsConstexprStorageInfo.dataIsSIMDAligned StaticB)
    (hbExtended : b.hasSIMDExtendedStorage = IsConstexprStorageInfo.hasSIMDExtendedStorage StaticB) :
    IsConstexprStorageInfo.dataIsSIMDAligned (CombinedStorageInfoConstexpr StaticA StaticB)
        = (CombinedStorageInfo.combine a b).dataIsSIMDAligned ∧
    IsConstexprStorageInfo.hasSIMDExtendedStorage (CombinedStorageInfoConstexpr StaticA StaticB)
        = (CombinedStorageInfo.combine a b).hasSIMDExtendedStorage := by
  simp only [CombinedStorageInfo.combine, IsStorageInfo.dataIsSIMDAligned,
    IsStorageInfo.hasSIMDExtendedStorage, haAligned, haExtended, hbAligned, hbExtended]
  exact ⟨rfl, rfl⟩

/-- C7 at `StaticStorageInfo<true, false, 32>` and `StaticStorageInfo<true, true, 32>`:
both combinations report aligned data and no extended storage. -/
theorem CombinedStorageInfo_constexpr_eq_runtime_witness :
    (IsConstexprStorageInfo.dataIsSIMDAligned
        (CombinedStorageInfoConstexpr (StaticStorageInfo true false 32)
          (StaticStorageInfo true true 32))
      = (CombinedStorageInfo.combine (⟨true, false⟩ : StorageInfo)
          (⟨true, true⟩ : StorageInfo)).dataIsSIMDAligned ∧
    IsConstexprStorageInfo.hasSIMDExtendedStorage
        (CombinedStorageInfoConstexpr (StaticStorageInfo true false 32)
          (StaticStorageInfo true true 32))
      = (CombinedStorageInfo.combine (⟨true, false⟩ : StorageInfo)
          (⟨true, true⟩ : StorageInfo)).hasSIMDExtendedStorage) ∧
    (CombinedStorageInfo.combine (⟨true, false⟩ : StorageInfo)
        (⟨true, true⟩ : StorageInfo)) = ⟨true, false⟩ :=
  ⟨CombinedStorageInfo_constexpr_eq_runtime ⟨true, false⟩ ⟨true, true⟩ rfl rfl rfl rfl, rfl⟩

/-- C8: for a runtime-observed storage, `dataIsSIMDAligned` is true iff the address of
the data pointer is a multiple of `Config::maxSIMDRegisterSize`, and
`hasSIMDExtendedStorage` is true iff `size() * sizeof (element)` is a multiple of
`Config::maxSIMDRegisterSize`; the converting constructor copies both booleans
unchanged. The byte count is a `size_t` product: it is the exact product whenever the
storage fits the address space, and its residue is unaffected by wrapping whenever the
register size divides `2 ^ sizeBits`. -/
theorem StorageInfo_runtime_flags (maxSIMDRegisterSize sizeBits dataPtr size sizeofValueType : Nat)
    (h : maxSIMDRegisterSize ∣ 2 ^ sizeBits ∨ size * sizeofValueType < 2 ^ sizeBits)
    {Other : Type} [IsStorageInfo Other] (other : Other) :
    ((StorageInfo.ofStorage maxSIMDRegisterSize sizeBits dataPtr size
        sizeofValueType).dataIsSIMDAligned = true ↔ maxSIMDRegisterSize ∣ dataPtr) ∧
    ((StorageInfo.ofStorage maxSIMDRegisterSize sizeBits dataPtr size
        sizeofValueType).hasSIMDExtendedStorage = true ↔
      maxSIMDRegisterSize ∣ size * sizeofValueType) ∧
    (StorageInfo.ofOther other).dataIsSIMDAligned = IsStorageInfo.dataIsSIMDAligned other ∧
    (StorageInfo.ofOther other).hasSIMDExtendedStorage
      = IsStorageInfo.hasSIMDExtendedStorage other := by
  refine ⟨?_, ?_, rfl, rfl⟩
  · simp [StorageInfo.ofStorage, detail.isPtrAligned, Nat.dvd_iff_mod_eq_zero]
  · have hmod : (size * sizeofValueType) % 2 ^ sizeBits % maxSIMDRegisterSize
        = (size * sizeofValueType) % maxSIMDRegisterSize := by
      rcases h with h | h
      · exact Nat.mod_mod_of_dvd _ h
      · rw [Nat.mod_eq_of_lt h]
    simp [StorageInfo.ofStorage, hmod, Nat.dvd_iff_mod_eq_zero]

/-- C8 at a 32-byte register size, 64-bit `size_t`, eight 4-byte elements at address 64
(both flags set), and the conversion of a combined info. -/
theorem StorageInfo_runtime_flags_witness :
    ((32 : Nat) ∣ 2 ^ 64 ∨ 8 * 4 < 2 ^ 64) ∧
    (((StorageInfo.ofStorage 32 64 64 8 4).dataIsSIMDAligned = true ↔ 32 ∣ 64) ∧
      ((StorageInfo.ofStorage 32 64 64 8 4).hasSIMDExtendedStorage = true ↔ 32 ∣ 8 * 4) ∧
      (StorageInfo.ofOther (⟨true, false⟩ : CombinedStorageInfo)).dataIsSIMDAligned
        = IsStorageInfo.dataIsSIMDAligned (⟨true, false⟩ : CombinedStorageInfo) ∧
      (StorageInfo.ofOther (⟨true, false⟩ : CombinedStorageInfo)).hasSIMDExtendedStorage
        = IsStorageInfo.hasSIMDExtendedStorage (⟨true, false⟩ : CombinedStorageInfo)) ∧
    StorageInfo.ofStorage 32 64 64 8 4 = ⟨true, true⟩ ∧
    StorageInfo.ofStorage 32 64 48 3 4 = ⟨false, false⟩ :=
  ⟨Or.inr (by decide),
    StorageInfo_runtime_flags 32 64 64 8 4 (Or.inr (by decide))
      (⟨true, false⟩ : CombinedStorageInfo),
    by decide, by decide⟩

/-! ## The alias check -/

/-- The two scalar shapes hand the question to their operand. -/
theorem scalar_shapes_isNotAliased (f : Vctr α → Nat → Bool) (single : α) (src : Src α)
    (dst : Nat) :
    (Src.SubtractVecFromSingle single src).isNotAliased f dst = src.isNotAliased f dst ∧
    (Src.SubtractSingleFromVec src single).isNotAliased f dst = src.isNotAliased f dst :=
  ⟨rfl, rfl⟩

/-- C9: for a vector-minus-vector node, `isNotAliased (dst)` is false if and only if one
operand is a sub-expression, the other operand is a memory-backed vector, and `dst`
equals the data pointer of that vector; for every other destination and operand
combination it is true. -/
theorem SubtractVectors_isNotAliased_eq_false_iff (f : Vctr α → Nat → Bool)
    (srcA srcB : Src α) (dst : Nat) :
    ((Src.SubtractVectors srcA srcB).isNotAliased f dst = false ↔
      (srcA.isExpression = true ∧ ∃ b, srcB = Src.vctr b ∧ dst = b.data) ∨
      (srcB.isExpression = true ∧ ∃ a, srcA = Src.vctr a ∧ dst = a.data)) ∧
    ((Src.SubtractVectors srcA srcB).isNotAliased f dst = true ↔
      ¬ ((srcA.isExpression = true ∧ ∃ b, srcB = Src.vctr b ∧ dst = b.data) ∨
         (srcB.isExpression = true ∧ ∃ a, srcA = Src.vctr a ∧ dst = a.data))) := by
  have key : (Src.SubtractVectors srcA srcB).isNotAliased f dst = false ↔
      (srcA.isExpression = true ∧ ∃ b, srcB = Src.vctr b ∧ dst = b.data) ∨
      (srcB.isExpression = true ∧ ∃ a, srcA = Src.vctr a ∧ dst = a.data) := by
    cases srcA <;> cases srcB <;> simp [Src.isNotAliased, Src.isExpression]
  refine ⟨key, ?_⟩
  rw [← key]
  cases (Src.SubtractVectors srcA srcB).isNotAliased f dst <;> simp

/-- C10, evaluated at `((a - b) - w) - [1, 2, 3]` with destination `w.data()`: the
operand `(a - b) - w` is an expression and reports a possible alias with the
destination, the node itself reports none. -/
theorem SubtractVectors_isNotAliased_ignores_operand (f : Vctr Int → Nat → Bool) :
    Examples.outerChain = Src.SubtractVectors Examples.innerChain Examples.vec123 ∧
    Examples.innerChain.isExpression = true ∧
    Examples.innerChain.isNotAliased f 96 = false ∧
    Examples.outerChain.isNotAliased f 96 = true :=
  ⟨rfl, rfl, rfl, rfl⟩

/-! ## The elementwise fallback under aliasing -/

/-- C13: every acceleration filter is a no-op at the value level: for each of
`NoAccelerationFilter`, `SSEFilter`, `AVXFilter` and `NeonFilter`, every source `x` and
every index `i`, `filter (x)[i] = x[i]` and the size is that of `x`; and where a filter
forwards a register accessor (`getSSE`, `getAVX`, `getNeon`) it returns exactly the
register of the source for the same register index. -/
theorem filters_are_value_noops [Sub α] {R : Registers} (arch : Arch) (isFloatNumber : Bool)
    (x : ExpressionNode α R) (e : Expr α) (i : Nat) :
    ((NoAccelerationFilter x).get i = x.get i ∧ (SSEFilter arch x).get i = x.get i ∧
      (AVXFilter arch isFloatNumber x).get i = x.get i ∧ (NeonFilter arch x).get i = x.get i) ∧
    ((NoAccelerationFilter x).size = x.size ∧ (SSEFilter arch x).size = x.size ∧
      (AVXFilter arch isFloatNumber x).size = x.size ∧ (NeonFilter arch x).size = x.size) ∧
    ((Expr.NoAccelerationFilter e).get i = e.get i ∧ (Expr.SSEFilter e).get i = e.get i ∧
      (Expr.AVXFilter e).get i = e.get i ∧ (Expr.NeonFilter e).get i = e.get i) ∧
    (∀ f, (SSEFilter arch x).getSSE = some f → ∃ g, x.getSSE = some g ∧ f i = g i) ∧
    (∀ f, (AVXFilter arch isFloatNumber x).getAVX = some f →
      ∃ g, x.getAVX = some g ∧ f i = g i) ∧
    (∀ f, (NeonFilter arch x).getNeon = some f → ∃ g, x.getNeon = some g ∧ f i = g i) := by
  refine ⟨⟨rfl, rfl, rfl, rfl⟩, ⟨rfl, rfl, rfl, rfl⟩, ⟨rfl, rfl, rfl, rfl⟩, ?_, ?_, ?_⟩
  · intro f hf
    rcases hx : x.getSSE with _ | g <;> rcases ha : arch.archX64 <;>
      simp [SSEFilter, hx, ha] at hf
    exact ⟨g, rfl, by rw [← hf]⟩
  · intro f hf
    rcases hx : x.getAVX with _ | g <;> rcases ha : arch.archX64 <;>
      rcases isFloatNumber <;> simp [AVXFilter, hx, ha] at hf
    all_goals exact ⟨g, rfl, by rw [← hf]⟩
  · intro f hf
    rcases hx : x.getNeon with _ | g <;> rcases ha : arch.archARM <;>
      simp [NeonFilter, hx, ha] at hf
    exact ⟨g, rfl, by rw [← hf]⟩

/-- The tiers offered by a filtered node, tier by tier. -/
theorem FilterKind_apply_offers {R : Registers} (arch : Arch) (isFloatNumber : Bool)
    (F : FilterKind) (x : ExpressionNode α R) (t : Tier) :
    (F.apply arch isFloatNumber x).offers t =
      match t with
      | .scalar => true
      | .SSE => F.allows .SSE && arch.archX64 && x.offers .SSE
      | .AVX => F.allows .AVX && arch.archX64 && x.offers .AVX
      | .Neon => F.allows .Neon && arch.archARM && x.offers .Neon
      | .vendorBulk => false := by
  cases F <;> cases t <;>
    simp [FilterKind.apply, FilterKind.allows, ExpressionNode.offers, NoAccelerationFilter,
      SSEFilter, AVXFilter, NeonFilter]
  · rcases arch.archX64 <;> rcases x.getSSE <;> simp
  · rcases arch.archX64 <;> rcases x.getAVX <;> rcases isFloatNumber <;> simp
  · rcases arch.archARM <;> rcases x.getNeon <;> simp

/-- C14: filters only narrow capability. The no-acceleration filter exposes exactly
`{scalar}`; the SSE filter exposes scalar, plus SSE iff the build targets x64 and the
operand exposes SSE, and never AVX, Neon or vendor-bulk (analogously the AVX filter
only AVX, the Neon filter only Neon on an ARM build). Hence on an x64 build the SSE
filter on a node with AVX+SSE+scalar access yields SSE+scalar access only, and the
capability set of every filtered node is a subset of that of its operand. -/
theorem filters_only_narrow_capability {R : Registers} (arch : Arch) (isFloatNumber : Bool)
    (x : ExpressionNode α R) :
    (NoAccelerationFilter x).capabilities = {Tier.scalar} ∧
    (SSEFilter arch x).capabilities
      = (if arch.archX64 = true ∧ Tier.SSE ∈ x.capabilities then {Tier.scalar, Tier.SSE}
         else {Tier.scalar}) ∧
    (AVXFilter arch isFloatNumber x).capabilities
      = (if arch.archX64 = true ∧ Tier.AVX ∈ x.capabilities then {Tier.scalar, Tier.AVX}
         else {Tier.scalar}) ∧
    (NeonFilter arch x).capabilities
      = (if arch.archARM = true ∧ Tier.Neon ∈ x.capabilities then {Tier.scalar, Tier.Neon}
         else {Tier.scalar}) ∧
    (arch.archX64 = true → {Tier.scalar, Tier.SSE, Tier.AVX} ⊆ x.capabilities →
      (SSEFilter arch x).capabilities = {Tier.scalar, Tier.SSE}) ∧
    (∀ F : FilterKind, (F.apply arch isFloatNumber x).capabilities ⊆ x.capabilities) := by
  have hmem : ∀ (n : ExpressionNode α R) (t : Tier), t ∈ n.capabilities ↔ n.offers t = true := by
    intro n t; simp [ExpressionNode.capabilities]
  have hNo := FilterKind_apply_offers arch isFloatNumber .dontUseAcceleration x
  have hSSE := FilterKind_apply_offers arch isFloatNumber .useSSE x
  have hAVX := FilterKind_apply_offers arch isFloatNumber .useAVX x
  have hNeon := FilterKind_apply_offers arch isFloatNumber .useNeon x
  simp only [FilterKind.apply] at hNo hSSE hAVX hNeon
  have e2 : (SSEFilter arch x).capabilities
      = (if arch.archX64 = true ∧ Tier.SSE ∈ x.capabilities then {Tier.scalar, Tier.SSE}
         else {Tier.scalar}) := by
    ext t
    rw [hmem, hSSE t]
    cases t <;> by_cases h1 : arch.archX64 = true <;> by_cases h2 : x.offers .SSE = true <;>
      simp [FilterKind.allows, hmem, h1, h2]
  refine ⟨?_, e2, ?_, ?_, ?_, ?_⟩
  · ext t
    rw [hmem, hNo t]
    cases t <;> simp [FilterKind.allows]
  · ext t
    rw [hmem, hAVX t]
    cases t <;> by_cases h1 : arch.archX64 = true <;> by_cases h2 : x.offers .AVX = true <;>
      simp [FilterKind.allows, hmem, h1, h2]
  · ext t
    rw [hmem, hNeon t]
    cases t <;> by_cases h1 : arch.archARM = true <;> by_cases h2 : x.offers .Neon = true <;>
      simp [FilterKind.allows, hmem, h1, h2]
  · intro hx64 hsub
    have : Tier.SSE ∈ x.capabilities := hsub (by simp)
    rw [e2, if_pos ⟨hx64, this⟩]
  · intro F t ht
    rw [hmem] at ht ⊢
    rw [FilterKind_apply_offers arch isFloatNumber F x t] at ht
    cases t <;> simp_all [ExpressionNode.offers]

/-- C15: filters can be chained and compose associatively. For any filters `F`, `G`, `H`
among no-acceleration, SSE, AVX and Neon and any source `x` (whose register accessors
match the build architecture), the chained node has the scalar values and the size of
`x`, both groupings of the chain give the same node, and its capability set is
`{scalar}` plus the tiers allowed by all of `F`, `G`, `H` and offered by `x`. Applying
the same filter twice equals applying it once, and chaining two different filters
leaves scalar access only. -/
theorem filters_chain {R : Registers} (arch : Arch) (isFloatNumber : Bool) (F G H : FilterKind)
    (x : ExpressionNode α R) (hx : x.matchesArch arch = true) :
    ((H.apply arch isFloatNumber ∘ G.apply arch isFloatNumber) ∘ F.apply arch isFloatNumber) x
      = (H.apply arch isFloatNumber ∘ (G.apply arch isFloatNumber ∘ F.apply arch isFloatNumber)) x ∧
    (∀ i, (H.apply arch isFloatNumber (G.apply arch isFloatNumber
        (F.apply arch isFloatNumber x))).get i = x.get i) ∧
    (H.apply arch isFloatNumber (G.apply arch isFloatNumber
        (F.apply arch isFloatNumber x))).size = x.size ∧
    (∀ t, t ∈ (H.apply arch isFloatNumber (G.apply arch isFloatNumber
        (F.apply arch isFloatNumber x))).capabilities ↔
      t = Tier.scalar ∨
        (F.allows t = true ∧ G.allows t = true ∧ H.allows t = true ∧ t ∈ x.capabilities)) ∧
    F.apply arch isFloatNumber (F.apply arch isFloatNumber x) = F.apply arch isFloatNumber x ∧
    (F ≠ G →
      (G.apply arch isFloatNumber (F.apply arch isFloatNumber x)).capabilities = {Tier.scalar}) := by
  have hmem : ∀ (n : ExpressionNode α R) (t : Tier), t ∈ n.capabilities ↔ n.offers t = true := by
    intro n t; simp [ExpressionNode.capabilities]
  simp only [ExpressionNode.matchesArch, Bool.and_eq_true, Bool.or_eq_true,
    Bool.not_eq_true'] at hx
  obtain ⟨⟨hsse, havx⟩, hneon⟩ := hx
  refine ⟨rfl, ?_, ?_, ?_, ?_, ?_⟩
  · intro i
    cases F <;> cases G <;> cases H <;> rfl
  · cases F <;> cases G <;> cases H <;> rfl
  · intro t
    rw [hmem, hmem]
    cases t
    · simp [ExpressionNode.offers]
    · simp only [FilterKind_apply_offers]
      have hs : x.offers .SSE = true → arch.archX64 = true := by
        intro h; rcases hsse with h' | h'
        · simp [ExpressionNode.offers, h'] at h
        · exact h'
      cases hf : F.allows .SSE <;> cases hg : G.allows .SSE <;> cases hh : H.allows .SSE <;>
        cases ha : arch.archX64 <;> cases ho : x.offers .SSE <;> simp_all
    · simp only [FilterKind_apply_offers]
      have hs : x.offers .AVX = true → arch.archX64 = true := by
        intro h; rcases havx with h' | h'
        · simp [ExpressionNode.offers, h'] at h
        · exact h'
      cases hf : F.allows .AVX <;> cases hg : G.allows .AVX <;> cases hh : H.allows .AVX <;>
        cases ha : arch.archX64 <;> cases ho : x.offers .AVX <;> simp_all
    · simp only [FilterKind_apply_offers]
      have hs : x.offers .Neon = true → arch.archARM = true := by
        intro h; rcases hneon with h' | h'
        · simp [ExpressionNode.offers, h'] at h
        · exact h'
      cases hf : F.allows .Neon <;> cases hg : G.allows .Neon <;> cases hh : H.allows .Neon <;>
        cases ha : arch.archARM <;> cases ho : x.offers .Neon <;> simp_all
    · simp only [FilterKind_apply_offers]
      cases F <;> simp [FilterKind.allows]
  · cases F
    · rfl
    · rcases ha : arch.archX64 <;> rcases hg : x.getSSE <;>
        simp [FilterKind.apply, SSEFilter, ha, hg, commonUnaryExpressionSize]
    · rcases ha : arch.archX64 <;> rcases hg : x.getAVX <;> rcases isFloatNumber <;>
        simp [FilterKind.apply, AVXFilter, ha, hg, commonUnaryExpressionSize]
    · rcases ha : arch.archARM <;> rcases hg : x.getNeon <;>
        simp [FilterKind.apply, NeonFilter, ha, hg, commonUnaryExpressionSize]
  · intro hFG
    ext t
    rw [hmem]
    cases t <;> simp only [FilterKind_apply_offers] <;> cases F <;> cases G <;>
      simp_all [FilterKind.allows]

/-- C15 on an x64 build at a node with scalar, SSE and AVX access: `useSSE` three times
leaves scalar and SSE access, `useSSE` then `useAVX` leaves scalar access only. -/
theorem filters_chain_witness :
    Examples.x64Node.matchesArch Examples.x64 = true ∧
    (FilterKind.useSSE.apply Examples.x64 false (FilterKind.useSSE.apply Examples.x64 false
        (FilterKind.useSSE.apply Examples.x64 false Examples.x64Node))).capabilities
      = {Tier.scalar, Tier.SSE} ∧
    (FilterKind.useAVX.apply Examples.x64 false
        (FilterKind.useSSE.apply Examples.x64 false Examples.x64Node)).capabilities
      = {Tier.scalar} ∧
    (∀ i, (FilterKind.useSSE.apply Examples.x64 false (FilterKind.useSSE.apply Examples.x64 false
        (FilterKind.useSSE.apply Examples.x64 false Examples.x64Node))).get i
      = Examples.x64Node.get i) :=
  ⟨rfl, by decide,
    (filters_chain Examples.x64 false .useSSE .useAVX .useNeon Examples.x64Node rfl).2.2.2.2.2
      (by decide),
    (filters_chain Examples.x64 false .useSSE .useSSE .useSSE Examples.x64Node rfl).2.1⟩

/-! ## Status validation of the IPP adapters -/

/-- The assertion passes exactly for the listed statuses. -/
theorem assertAllowedStatus_isSome (allowed : List IppStatus) (s : IppStatus) :
    (assertAllowedStatus allowed s).isSome = true ↔ s ∈ allowed := by
  have hfold : List.foldr (fun a rest => s == a || rest) false allowed = true ↔ s ∈ allowed := by
    induction allowed with
    | nil => simp
    | cons a rest ih => simp [List.foldr, ih]
  unfold assertAllowedStatus VCTR_ASSERT
  split
  · rename_i h; simpa using hfold.mp h
  · rename_i h; simpa using fun hmem => h (hfold.mpr hmem)

/-- C17: status validation is an exact allow-list check: `assertAllowedStatus<allowed...> (s)`
passes if and only if `s` equals one of the listed statuses (and fails for an empty
list); `assertIppNoErr (s)` passes if and only if `s` is `ippStsNoErr`. -/
theorem assertAllowedStatus_exact (codes : IppStatusCodes) (allowed : List IppStatus)
    (s : IppStatus) :
    ((assertAllowedStatus allowed s).isSome = true ↔ s ∈ allowed) ∧
    ((assertAllowedStatus allowed s) = none ↔ s ∉ allowed) ∧
    assertAllowedStatus [] s = none ∧
    ((assertIppNoErr codes s).isSome = true ↔ s = codes.ippStsNoErr) ∧
    ((assertIppNoErr codes s) = none ↔ s ≠ codes.ippStsNoErr) := by
  have h := assertAllowedStatus_isSome allowed s
  have h1 := assertAllowedStatus_isSome [codes.ippStsNoErr] s
  have hnil := assertAllowedStatus_isSome [] s
  refine ⟨h, ?_, ?_, ?_, ?_⟩
  · rw [← h]; cases assertAllowedStatus allowed s <;> simp
  · cases hc : assertAllowedStatus [] s
    · rfl
    · rw [hc] at hnil; simp at hnil
  · simpa [assertIppNoErr] using h1
  · unfold assertIppNoErr
    cases hc : assertAllowedStatus [codes.ippStsNoErr] s <;> rw [hc] at h1 <;> simp at h1 ⊢ <;>
      exact h1

/-- A member of `IntelIPP<T>` completes exactly when the specialisation has the member
and the status of the vendor call is on the allow-list of its assertion. -/
theorem IntelIPP.call_isSome {α : Type} (codes : IppStatusCodes) (T : IppElementType)
    (op : IppOp) (result : IppStatus × Memory α) :
    (IntelIPP.call codes T op result).isSome = true ↔
      ∃ allowed, IntelIPP.allowedStatus codes T op = some allowed ∧ result.1 ∈ allowed := by
  cases hop : IntelIPP.allowedStatus codes T op with
  | none => simp [IntelIPP.call, hop]
  | some allowed =>
      have hs := assertAllowedStatus_isSome allowed result.1
      cases hc : assertAllowedStatus allowed result.1 with
      | none =>
          rw [hc] at hs
          simpa [IntelIPP.call, hop, hc] using hs
      | some u =>
          rw [hc] at hs
          simpa [IntelIPP.call, hop, hc] using hs

/-- C18: per-operation status policy, for every status the vendor call may return. The
`ln` and `log10` members of `IntelIPP<float>` and `IntelIPP<double>` complete exactly when
the status is success or the singularity status. Every other member completes exactly
when the status is success and aborts on any other status: `abs`, the add, sub, mul
and div overloads, `threshold` and `exp` of float and of double (double has no
`div (scalar, vector)`), `abs` and the add, sub, mul and div overloads of the two
complex types, and `abs` of int32. No member of any specialisation other than the four
logarithms completes on a status that is not success, the specialisations have no
further members, and a member that completes leaves the memory of the vendor call. -/
theorem IntelIPP_status_policy {α : Type} (codes : IppStatusCodes)
    (result : IppStatus × Memory α) :
    (∀ T op, (T = .float ∨ T = .double) → (op = .ln ∨ op = .log10) →
      ((IntelIPP.call codes T op result).isSome = true ↔
        result.1 = codes.ippStsNoErr ∨ result.1 = codes.ippStsSingularity)) ∧
    (∀ op ∈ [IppOp.abs, .addVec, .addC, .subVec, .subC, .subCRev, .mulVec, .mulC,
        .mulCInPlace, .divVec, .divC, .divCRev, .threshold, .exp],
      ((IntelIPP.call codes .float op result).isSome = true ↔
        result.1 = codes.ippStsNoErr)) ∧
    (∀ op ∈ [IppOp.abs, .addVec, .addC, .subVec, .subC, .subCRev, .mulVec, .mulC,
        .mulCInPlace, .divVec, .divC, .threshold, .exp],
      ((IntelIPP.call codes .double op result).isSome = true ↔
        result.1 = codes.ippStsNoErr)) ∧
    (∀ T op, (T = .complexFloat ∨ T = .complexDouble) →
      op ∈ [IppOp.abs, .addVec, .addC, .subVec, .subC, .subCRev, .mulVec, .mulC,
        .divVec, .divC] →
      ((IntelIPP.call codes T op result).isSome = true ↔ result.1 = codes.ippStsNoErr)) ∧
    ((IntelIPP.call codes .int32 .abs result).isSome = true ↔
      result.1 = codes.ippStsNoErr) ∧
    (∀ T op, (IntelIPP.call codes T op result).isSome = true →
      result.1 ≠ codes.ippStsNoErr →
      (T = .float ∨ T = .double) ∧ (op = .ln ∨ op = .log10) ∧
        result.1 = codes.ippStsSingularity) ∧
    IntelIPP.call codes .double .divCRev result = none ∧
    (∀ T op, (T = .complexFloat ∨ T = .complexDouble) →
      op ∈ [IppOp.mulCInPlace, .divCRev, .threshold, .ln, .log10, .exp] →
      IntelIPP.call codes T op result = none) ∧
    (∀ op, op ≠ .abs → IntelIPP.call codes .int32 op result = none) ∧
    (∀ T op mem', IntelIPP.call codes T op result = some mem' → mem' = result.2) := by
  refine ⟨?_, ?_, ?_, ?_, ?_, ?_, ?_, ?_, ?_, ?_⟩
  · intro T op hT hop
    rw [IntelIPP.call_isSome]
    rcases hT with rfl | rfl <;> rcases hop with rfl | rfl <;> simp [IntelIPP.allowedStatus]
  · intro op hop
    rw [IntelIPP.call_isSome]
    cases op <;> simp [IntelIPP.allowedStatus] at hop ⊢
  · intro op hop
    rw [IntelIPP.call_isSome]
    cases op <;> simp [IntelIPP.allowedStatus] at hop ⊢
  · intro T op hT hop
    rw [IntelIPP.call_isSome]
    rcases hT with rfl | rfl <;> cases op <;> simp [IntelIPP.allowedStatus] at hop ⊢
  · rw [IntelIPP.call_isSome]
    simp [IntelIPP.allowedStatus]
  · intro T op hsome hne
    rw [IntelIPP.call_isSome] at hsome
    obtain ⟨allowed, hallowed, hmem⟩ := hsome
    cases T <;> cases op <;> simp [IntelIPP.allowedStatus] at hallowed <;> subst hallowed <;>
      simp [hne] at hmem ⊢ <;> exact hmem
  · simp [IntelIPP.call, IntelIPP.allowedStatus]
  · intro T op hT hop
    rcases hT with rfl | rfl <;> cases op <;> simp [IntelIPP.call, IntelIPP.allowedStatus] at hop ⊢
  · intro op hop
    cases op <;> simp [IntelIPP.call, IntelIPP.allowedStatus] at hop ⊢
  · intro T op mem' hmem
    cases hop : IntelIPP.allowedStatus codes T op with
    | none => simp [IntelIPP.call, hop] at hmem
    | some allowed =>
        cases hc : assertAllowedStatus allowed result.1 <;>
          simp [IntelIPP.call, hop, hc] at hmem
        exact hmem.symm

/-! ## Operand order of the IPP adapters -/

/-- Element `i < len` of the destination after a two-source elementwise pass. -/
theorem Memory.elementwise2_read (f : α → α → α) (p1 p2 dst len : Nat) (mem : Memory α)
    (h1 : len ≤ (mem p1).length) (h2 : len ≤ (mem p2).length) (i : Nat) (hi : i < len) :
    ∃ x1 x2, (mem p1)[i]? = some x1 ∧ (mem p2)[i]? = some x2 ∧
      (mem.elementwise2 f p1 p2 dst len dst)[i]? = some (f x1 x2) := by
  have hi1 : i < (mem p1).length := by omega
  have hi2 : i < (mem p2).length := by omega
  refine ⟨(mem p1)[i], (mem p2)[i], by simp [hi1], by simp [hi2], ?_⟩
  have hz : i < (List.zipWith f ((mem p1).take len) ((mem p2).take len)).length := by
    simp; omega
  simp only [Memory.elementwise2, Function.update_same]
  rw [List.getElem?_append_left hz, List.getElem?_zipWith, List.getElem?_take_of_lt hi,
    List.getElem?_take_of_lt hi]
  simp [hi1, hi2]

/-- Element `i < len` of the destination after a one-source elementwise pass. -/
theorem Memory.elementwise1_read (f : α → α) (p dst len : Nat) (mem : Memory α)
    (h : len ≤ (mem p).length) (i : Nat) (hi : i < len) :
    ∃ x, (mem p)[i]? = some x ∧ (mem.elementwise1 f p dst len dst)[i]? = some (f x) := by
  have hi1 : i < (mem p).length := by omega
  refine ⟨(mem p)[i], by simp [hi1], ?_⟩
  have hz : i < (((mem p).take len).map f).length := by simp; omega
  simp only [Memory.elementwise1, Function.update_same]
  rw [List.getElem?_append_left hz, List.getElem?_map, List.getElem?_take_of_lt hi]
  simp [hi1]

/-- A member of `IntelIPP<T>` completes with the memory of the vendor call when the
vendor reports success. -/
theorem IntelIPP.call_of_noErr (codes : IppStatusCodes) (T : IppElementType) (op : IppOp)
    (hop : IntelIPP.allowedStatus codes T op ≠ none) (result : IppStatus × Memory α)
    (hstatus : result.1 = codes.ippStsNoErr) :
    IntelIPP.call codes T op result = some result.2 := by
  have hpass : ∀ l : List IppStatus, codes.ippStsNoErr ∈ l →
      assertAllowedStatus l codes.ippStsNoErr = some () := by
    intro l hl
    have := (assertAllowedStatus_isSome l codes.ippStsNoErr).mpr hl
    cases hc : assertAllowedStatus l codes.ippStsNoErr
    · rw [hc] at this; simp at this
    · rfl
  cases T <;> cases op <;> simp [IntelIPP.allowedStatus] at hop <;>
    simp [IntelIPP.call, IntelIPP.allowedStatus, hstatus, hpass]

/-- The reference routines follow the vendor conventions. -/
theorem Examples.referenceIpps_followsConventions [Sub α] [Div α] (codes : IppStatusCodes) :
    (Examples.referenceIpps codes : IppsRoutines α).FollowsConventions :=
  ⟨fun _ _ _ _ _ _ _ _ => rfl, fun _ _ _ _ _ _ _ => rfl, fun _ _ _ _ _ _ _ => rfl,
    fun _ _ _ _ _ _ _ _ => rfl, fun _ _ _ _ _ _ _ => rfl, fun _ _ _ _ _ _ _ => rfl⟩

/-- C16: the IPP adapters normalise the operand order of the non-commutative operations.
Assuming the vendor conventions, for every element type and every `sub` and `div`
overload its specialisation has, a call on which the vendor reports success completes
and leaves `dst[i] = A[i] - B[i]`, respectively `dst[i] = A[i] / B[i]`, for all
`i < len`, where a scalar argument stands for the constant vector of that value. -/
theorem IntelIPP_sub_div_operand_order [Sub α] [Div α] (codes : IppStatusCodes)
    (ipps : IppsRoutines α) (hconv : ipps.FollowsConventions) (T : IppElementType)
    (srcA srcB dst len : Nat) (single : α) (mem : Memory α)
    (hA : len ≤ (mem srcA).length) (hB : len ≤ (mem srcB).length)
    (hD : len ≤ (mem dst).length) :
    (IntelIPP.allowedStatus codes T .subVec ≠ none →
      (ipps.ippsSub srcB srcA dst len mem).1 = codes.ippStsNoErr →
      ∃ mem', IntelIPP.sub codes ipps T srcA srcB dst len mem = some mem' ∧
        ∀ i, i < len → ∃ a b, (mem srcA)[i]? = some a ∧ (mem srcB)[i]? = some b ∧
          (mem' dst)[i]? = some (a - b)) ∧
    (IntelIPP.allowedStatus codes T .subC ≠ none →
      (ipps.ippsSubC srcA single dst len mem).1 = codes.ippStsNoErr →
      ∃ mem', IntelIPP.subC codes ipps T srcA single dst len mem = some mem' ∧
        ∀ i, i < len → ∃ a, (mem srcA)[i]? = some a ∧ (mem' dst)[i]? = some (a - single)) ∧
    (IntelIPP.allowedStatus codes T .subCRev ≠ none →
      (ipps.ippsSubCRev srcB single dst len mem).1 = codes.ippStsNoErr →
      ∃ mem', IntelIPP.subCRev codes ipps T single srcB dst len mem = some mem' ∧
        ∀ i, i < len → ∃ b, (mem srcB)[i]? = some b ∧ (mem' dst)[i]? = some (single - b)) ∧
    (IntelIPP.allowedStatus codes T .divVec ≠ none →
      (ipps.ippsDiv srcB srcA dst len mem).1 = codes.ippStsNoErr →
      ∃ mem', IntelIPP.div codes ipps T srcA srcB dst len mem = some mem' ∧
        ∀ i, i < len → ∃ a b, (mem srcA)[i]? = some a ∧ (mem srcB)[i]? = some b ∧
          (mem' dst)[i]? = some (a / b)) ∧
    (IntelIPP.allowedStatus codes T .divC ≠ none →
      (ipps.ippsDivC srcA single dst len mem).1 = codes.ippStsNoErr →
      ∃ mem', IntelIPP.divC codes ipps T srcA single dst len mem = some mem' ∧
        ∀ i, i < len → ∃ a, (mem srcA)[i]? = some a ∧ (mem' dst)[i]? = some (a / single)) ∧
    (IntelIPP.allowedStatus codes T .divCRev ≠ none →
      (ipps.ippsDivCRev srcB single dst len mem).1 = codes.ippStsNoErr →
      ∃ mem', IntelIPP.divCRev codes ipps T single srcB dst len mem = some mem' ∧
        ∀ i, i < len → ∃ b, (mem srcB)[i]? = some b ∧ (mem' dst)[i]? = some (single / b)) := by
  refine ⟨?_, ?_, ?_, ?_, ?_, ?_⟩
  · intro hop hst
    refine ⟨_, IntelIPP.call_of_noErr codes T .subVec hop _ hst, ?_⟩
    intro i hi
    rw [hconv.ippsSub srcB srcA dst len mem hB hA hD]
    obtain ⟨x1, x2, h1, h2, h3⟩ :=
      Memory.elementwise2_read (fun x1 x2 => x2 - x1) srcB srcA dst len mem hB hA i hi
    exact ⟨x2, x1, h2, h1, h3⟩
  · intro hop hst
    refine ⟨_, IntelIPP.call_of_noErr codes T .subC hop _ hst, ?_⟩
    intro i hi
    rw [hconv.ippsSubC srcA single dst len mem hA hD]
    exact Memory.elementwise1_read (fun x => x - single) srcA dst len mem hA i hi
  · intro hop hst
    refine ⟨_, IntelIPP.call_of_noErr codes T .subCRev hop _ hst, ?_⟩
    intro i hi
    rw [hconv.ippsSubCRev srcB single dst len mem hB hD]
    exact Memory.elementwise1_read (fun x => single - x) srcB dst len mem hB i hi
  · intro hop hst
    refine ⟨_, IntelIPP.call_of_noErr codes T .divVec hop _ hst, ?_⟩
    intro i hi
    rw [hconv.ippsDiv srcB srcA dst len mem hB hA hD]
    obtain ⟨x1, x2, h1, h2, h3⟩ :=
      Memory.elementwise2_read (fun x1 x2 => x2 / x1) srcB srcA dst len mem hB hA i hi
    exact ⟨x2, x1, h2, h1, h3⟩
  · intro hop hst
    refine ⟨_, IntelIPP.call_of_noErr codes T .divC hop _ hst, ?_⟩
    intro i hi
    rw [hconv.ippsDivC srcA single dst len mem hA hD]
    exact Memory.elementwise1_read (fun x => x / single) srcA dst len mem hA i hi
  · intro hop hst
    refine ⟨_, IntelIPP.call_of_noErr codes T .divCRev hop _ hst, ?_⟩
    intro i hi
    rw [hconv.ippsDivCRev srcB single dst len mem hB hD]
    exact Memory.elementwise1_read (fun x => single / x) srcB dst len mem hB i hi

/-- C16 for `IntelIPP<float>` at `A = [6, 8, 9]`, `B = [2, 4, 3]` and the scalar 2, with
routines that follow the vendor conventions: `sub (A, B)` and `div (2, B)` complete with
`A[i] - B[i]` and `2 / B[i]`. -/
theorem IntelIPP_sub_div_operand_order_witness :
    (Examples.referenceIpps Examples.ippCodes : IppsRoutines ℚ).FollowsConventions ∧
    (3 ≤ (Examples.ratMemory 0).length ∧ 3 ≤ (Examples.ratMemory 32).length ∧
      3 ≤ (Examples.ratMemory 64).length) ∧
    (∃ mem', IntelIPP.sub Examples.ippCodes (Examples.referenceIpps Examples.ippCodes)
        .float 0 32 64 3 Examples.ratMemory = some mem' ∧
      ∀ i, i < 3 → ∃ a b, (Examples.ratMemory 0)[i]? = some a ∧
        (Examples.ratMemory 32)[i]? = some b ∧ (mem' 64)[i]? = some (a - b)) ∧
    (∃ mem', IntelIPP.divCRev Examples.ippCodes (Examples.referenceIpps Examples.ippCodes)
        .float 2 32 64 3 Examples.ratMemory = some mem' ∧
      ∀ i, i < 3 → ∃ b, (Examples.ratMemory 32)[i]? = some b ∧
        (mem' 64)[i]? = some (2 / b)) :=
  ⟨Examples.referenceIpps_followsConventions Examples.ippCodes,
    ⟨by decide, by decide, by decide⟩,
    (IntelIPP_sub_div_operand_order Examples.ippCodes (Examples.referenceIpps Examples.ippCodes)
      (Examples.referenceIpps_followsConventions Examples.ippCodes) .float 0 32 64 3 2
      Examples.ratMemory (by decide) (by decide) (by decide)).1 (by simp [IntelIPP.allowedStatus])
      rfl,
    (IntelIPP_sub_div_operand_order Examples.ippCodes (Examples.referenceIpps Examples.ippCodes)
      (Examples.referenceIpps_followsConventions Examples.ippCodes) .float 0 32 64 3 2
      Examples.ratMemory (by decide) (by decide) (by decide)).2.2.2.2.2
      (by simp [IntelIPP.allowedStatus]) rfl⟩

/-- C18 at the example status codes, for the singularity status that the vendor reports
for an input containing `0.0`: `log10` and `ln` of float and of double complete, while
`sub` of float, `add` of a complex type and `abs` of int32 abort. -/
theorem IntelIPP_status_policy_witness :
    (IntelIPP.call Examples.ippCodes .float .log10
      ((18 : IppStatus), Examples.memory)).isSome = true ∧
    (IntelIPP.call Examples.ippCodes .double .log10
      ((18 : IppStatus), Examples.memory)).isSome = true ∧
    (IntelIPP.call Examples.ippCodes .float .ln
      ((18 : IppStatus), Examples.memory)).isSome = true ∧
    (IntelIPP.call Examples.ippCodes .double .ln
      ((18 : IppStatus), Examples.memory)).isSome = true ∧
    ¬ (IntelIPP.call Examples.ippCodes .float .subVec
      ((18 : IppStatus), Examples.memory)).isSome = true ∧
    ¬ (IntelIPP.call Examples.ippCodes .complexFloat .addVec
      ((18 : IppStatus), Examples.memory)).isSome = true ∧
    ¬ (IntelIPP.call Examples.ippCodes .int32 .abs
      ((18 : IppStatus), Examples.memory)).isSome = true :=
  have h := IntelIPP_status_policy Examples.ippCodes ((18 : IppStatus), Examples.memory)
  ⟨(h.1 .float .log10 (Or.inl rfl) (Or.inr rfl)).mpr (by decide),
    (h.1 .double .log10 (Or.inr rfl) (Or.inr rfl)).mpr (by decide),
    (h.1 .float .ln (Or.inl rfl) (Or.inl rfl)).mpr (by decide),
    (h.1 .double .ln (Or.inr rfl) (Or.inl rfl)).mpr (by decide),
    fun hc => absurd ((h.2.1 .subVec (by decide)).mp hc) (by decide),
    fun hc => absurd ((h.2.2.2.1 .complexFloat .addVec (Or.inl rfl) (by decide)).mp hc)
      (by decide),
    fun hc => absurd (h.2.2.2.2.1.mp hc) (by decide)⟩

/-! ## The vendor-bulk tier of the subtraction nodes -/

/-- C12, evaluated at `((a - b) - w) - v` over floats with routines that follow the vendor
conventions. The scalar reference is `[-8, -22, -28]`. Into the spare buffer the
IPP-backed bulk evaluation returns the destination and leaves the reference values.
With the buffer of `w` as destination `isNotAliased` holds for the node, the bulk
evaluation returns the destination, and it leaves `[-1, -2, -3]`: the operand
`(a - b) - w` has overwritten `w` before reading it. -/
theorem SubtractVectors_bulk_differs_from_scalar (f : Vctr ℚ → Nat → Bool) :
    (List.range 3).map Examples.floatOuterChain.get = [some (-8), some (-22), some (-28)] ∧
    (Examples.floatOuterChain.isNotAliased f 200 = true ∧
      (Examples.floatOuterChain.evalNextVectorOpInExpressionChain Examples.ippCodes
        (Examples.referenceIpps Examples.ippCodes) .float 200 Examples.floatMemory).map
          (fun r => (r.1 200, r.2)) = some ([-8, -22, -28], 200)) ∧
    (Examples.floatOuterChain.isNotAliased f 96 = true ∧
      Examples.floatInnerChain.isNotAliased f 96 = false ∧
      (Examples.floatOuterChain.evalNextVectorOpInExpressionChain Examples.ippCodes
        (Examples.referenceIpps Examples.ippCodes) .float 96 Examples.floatMemory).map
          (fun r => (r.1 96, r.2)) = some ([-1, -2, -3], 96)) := by
  refine ⟨?_, ⟨rfl, ?_⟩, ⟨rfl, rfl, ?_⟩⟩
  · simp [Examples.floatOuterChain, Examples.floatInnerChain, Src.get, List.range_succ]
    norm_num
  · simp [Examples.floatOuterChain, Examples.floatInnerChain,
      Src.evalNextVectorOpInExpressionChain, Vctr.evalNextVectorOpInExpressionChain,
      IntelIPP.sub, IntelIPP.call, IntelIPP.allowedStatus, Examples.referenceIpps,
      Examples.ippCodes, assertAllowedStatus, VCTR_ASSERT, Src.size, Memory.elementwise2,
      Examples.floatMemory, Function.update]
    norm_num
  · simp [Examples.floatOuterChain, Examples.floatInnerChain,
      Src.evalNextVectorOpInExpressionChain, Vctr.evalNextVectorOpInExpressionChain,
      IntelIPP.sub, IntelIPP.call, IntelIPP.allowedStatus, Examples.referenceIpps,
      Examples.ippCodes, assertAllowedStatus, VCTR_ASSERT, Src.size, Memory.elementwise2,
      Examples.floatMemory, Function.update]

/-! ## One bulk strategy per node -/

/-- C19: at most one bulk strategy per node: for each of the three subtract shapes, every
build configuration, every operand capability and every element type, the
Accelerate-backed overload (gated with `dontPreferIfIppAndAccelerateAreAvailable`) and
the IPP-backed overload (gated with `preferIfIppAndAccelerateAreAvailable`) of
`evalNextVectorOpInExpressionChain` are never both enabled. -/
theorem at_most_one_bulk_overload (shape : SubtractShape) (cfg : BuildConfig)
    (operandsOffer : Bool) (domain : ElementDomain) :
    ¬ (shape.accelerateOverloadEnabled cfg operandsOffer domain = true ∧
        shape.ippOverloadEnabled cfg operandsOffer domain = true) := by
  obtain ⟨ipp, acc⟩ := cfg
  cases shape <;> cases ipp <;> cases acc <;> cases operandsOffer <;> cases domain <;>
    simp [SubtractShape.accelerateOverloadEnabled, SubtractShape.ippOverloadEnabled,
      suitableForAccelerateRealFloatVectorOp, suitableForAccelerateRealOrComplexFloatVectorOp,
      suitableForIppRealOrComplexFloatVectorOp, Preference.admits]

/-! ## Decibel conversion -/

/-- C20: `magToDb<DecibelConstant, minDb>` applied to a source `x` computes, for every
index `i`, `max (constant * log10 (x[i]), minDb)`, where the constant is 20 for dBFS and
dBVoltage and 10 for dBPower and `minDb` defaults to -100; consequently every output
element is at least `minDb`, and dBFS and dBVoltage give identical results. -/
theorem magToDb_eq_max {K : Type} [LinearOrderedField K] (log10 : K → K)
    (decibelConstant : DecibelConstant) (minDb : Int) (x : Nat → Option K) (i : Nat) :
    magToDb log10 decibelConstant minDb x i
      = (x i).map (fun m => max ((decibelConstant.value : K) * log10 m) (minDb : K)) ∧
    (DecibelConstant.dBFS.value = 20 ∧ DecibelConstant.dBVoltage.value = 20 ∧
      DecibelConstant.dBPower.value = 10 ∧ magToDbDefaultMinDb = -100) ∧
    (∀ y, magToDb log10 decibelConstant minDb x i = some y → (minDb : K) ≤ y) ∧
    magToDb log10 .dBFS minDb x i = magToDb log10 .dBVoltage minDb x i := by
  have h : magToDb log10 decibelConstant minDb x i
      = (x i).map (fun m => max ((decibelConstant.value : K) * log10 m) (minDb : K)) := by
    cases hx : x i <;>
      simp [magToDb, MagToDb, ClampLowByConstant, MultiplyVecByConstant, Log10, hx, mul_comm]
  refine ⟨h, ⟨rfl, rfl, rfl, rfl⟩, ?_, rfl⟩
  intro y hy
  rw [h] at hy
  cases hx : x i <;> simp [hx] at hy
  rw [← hy]
  exact le_max_right _ _

/-! ## Rounding sizes to multiples of a power of two -/

namespace detail

/-- Masking with `2 ^ w - 2 ^ k` clears the low `k` bits of a `w`-bit number. -/
theorem and_high_mask (w k n : Nat) (hk : k ≤ w) (hn : n < 2 ^ w) :
    n &&& (2 ^ w - 2 ^ k) = n - n % 2 ^ k := by
  have hmask : 2 ^ w - 2 ^ k = 2 ^ k * (2 ^ (w - k) - 1) := by
    rw [Nat.mul_sub, ← Nat.pow_add, Nat.add_sub_cancel' hk, Nat.mul_one]
  have hr : n - n % 2 ^ k = 2 ^ k * (n / 2 ^ k) := by
    have := Nat.div_add_mod n (2 ^ k)
    omega
  rw [hmask, hr]
  apply Nat.eq_of_testBit_eq
  intro i
  rw [Nat.testBit_and, Nat.testBit_mul_pow_two, Nat.testBit_mul_pow_two,
    Nat.testBit_two_pow_sub_one, ← Nat.shiftRight_eq_div_pow, Nat.testBit_shiftRight]
  by_cases hik : k ≤ i
  · have e : k + (i - k) = i := by omega
    rw [e]
    by_cases hiw : i < w
    · have : i - k < w - k := by omega
      simp [hik, this]
    · have hlt : n < 2 ^ i := lt_of_lt_of_le hn (Nat.pow_le_pow_right (by decide) (by omega))
      simp [Nat.testBit_lt_two_pow hlt]
  · simp [hik]

/-- All bits set, shifted left by `k` in `w` bits, is the mask `2 ^ w - 2 ^ k`. -/
theorem shifted_allBitsOne (w k : Nat) (hk : k ≤ w) :
    ((2 ^ w - 1) <<< k) % 2 ^ w = (2 ^ w - 2 ^ k) % 2 ^ w := by
  have h1 : 1 ≤ 2 ^ k := Nat.one_le_two_pow
  have h2 : 2 ^ k ≤ 2 ^ w := Nat.pow_le_pow_right (by decide) hk
  have e : (2 ^ w - 1) <<< k = 2 ^ w * (2 ^ k - 1) + (2 ^ w - 2 ^ k) := by
    rw [Nat.shiftLeft_eq, Nat.sub_mul, Nat.mul_sub, Nat.one_mul, Nat.mul_one]
    have : 2 ^ w ≤ 2 ^ w * 2 ^ k := Nat.le_mul_of_pos_right _ (by omega)
    omega
  rw [e, Nat.mul_add_mod]

/-- The number of mask bits for the value `2 ^ k` is `k`. -/
theorem bit_width_two_pow (k : Nat) : bit_width (2 ^ k) - 1 = k := by
  have : 2 ^ k ≠ 0 := by positivity
  simp [bit_width, this, Nat.log2_two_pow]

/-- `previousMultipleOf` clears the remainder. -/
theorem previousMultipleOf_eq (w k n : Nat) (hk : k < w) (hn : n < 2 ^ w) :
    previousMultipleOf w (2 ^ k) n = n - n % 2 ^ k := by
  have h2 : 2 ^ k ≤ 2 ^ w := Nat.pow_le_pow_right (by decide) hk.le
  have h1 : 1 ≤ 2 ^ k := Nat.one_le_two_pow
  unfold previousMultipleOf
  simp only [bit_width_two_pow]
  rw [shifted_allBitsOne w k hk.le, Nat.mod_eq_of_lt (by omega)]
  exact and_high_mask w k n hk.le hn

/-- The wrapped sum and decrement equal the wrapped `n + value - 1`. -/
theorem nextMultipleOf_sum (w k n : Nat) :
    ((n + 2 ^ k) % 2 ^ w + (2 ^ w - 1)) % 2 ^ w = (n + 2 ^ k - 1) % 2 ^ w := by
  have h1 : 1 ≤ 2 ^ k := Nat.one_le_two_pow
  have hM : 1 ≤ 2 ^ w := Nat.one_le_two_pow
  rw [Nat.add_mod, Nat.mod_mod, ← Nat.add_mod]
  have : n + 2 ^ k + (2 ^ w - 1) = (n + 2 ^ k - 1) + 2 ^ w := by omega
  rw [this, Nat.add_mod_right]

/-- Without overflow `nextMultipleOf` clears the remainder of `n + value - 1`. -/
theorem nextMultipleOf_eq (w k n : Nat) (hk : k < w) (hfit : n + 2 ^ k - 1 < 2 ^ w) :
    nextMultipleOf w (2 ^ k) n = (n + 2 ^ k - 1) - (n + 2 ^ k - 1) % 2 ^ k := by
  have h2 : 2 ^ k ≤ 2 ^ w := Nat.pow_le_pow_right (by decide) hk.le
  have h1 : 1 ≤ 2 ^ k := Nat.one_le_two_pow
  unfold nextMultipleOf
  rw [nextMultipleOf_sum, Nat.mod_eq_of_lt hfit, Nat.mod_eq_of_lt (by omega)]
  exact and_high_mask w k _ hk.le hfit

/-- With overflow the wrapped sum is below the value and the mask clears it. -/
theorem nextMultipleOf_wrap (w k n : Nat) (hk : k < w) (hn : n < 2 ^ w)
    (hwrap : 2 ^ w ≤ n + 2 ^ k - 1) : nextMultipleOf w (2 ^ k) n = 0 := by
  have h2 : 2 ^ k ≤ 2 ^ w := Nat.pow_le_pow_right (by decide) hk.le
  have h1 : 1 ≤ 2 ^ k := Nat.one_le_two_pow
  unfold nextMultipleOf
  rw [nextMultipleOf_sum, Nat.mod_eq_of_lt (show 2 ^ w - 2 ^ k < 2 ^ w by omega)]
  have hs : (n + 2 ^ k - 1) % 2 ^ w = n + 2 ^ k - 1 - 2 ^ w := by
    rw [Nat.mod_eq_sub_mod hwrap, Nat.mod_eq_of_lt (by omega)]
  rw [hs, and_high_mask w k _ hk.le (by omega), Nat.mod_eq_of_lt (by omega)]
  omega


/-- Facts about the least multiple of `v` at or above `n`. -/
theorem ceil_multiple_facts (v n : Nat) (hv : 0 < v) :
    v ∣ (n + v - 1) - (n + v - 1) % v ∧ n ≤ (n + v - 1) - (n + v - 1) % v ∧
    (n + v - 1) - (n + v - 1) % v < n + v ∧
    (∀ m, v ∣ m → n ≤ m → (n + v - 1) - (n + v - 1) % v ≤ m) := by
  have hmod : (n + v - 1) % v < v := Nat.mod_lt _ hv
  have hdm := Nat.div_add_mod (n + v - 1) v
  refine ⟨Nat.dvd_sub_mod _, by omega, by omega, ?_⟩
  rintro m ⟨q, rfl⟩ hle
  have hlt : (n + v - 1) / v < q + 1 := by
    apply Nat.div_lt_of_lt_mul
    rw [Nat.mul_add, Nat.mul_one]
    omega
  have hq : v * ((n + v - 1) / v) ≤ v * q := Nat.mul_le_mul_left _ (by omega)
  omega

end detail

/-- C28: `detail::nextMultipleOf<value> (n)`, for every power of two `value = 2 ^ k` that
fits `size_t` and every `n` with `n + value - 1 <= SIZE_MAX`, returns the least multiple
of `value` that is at least `n`: it is a multiple, at least `n`, exceeds `n` by less than
`value`, is a fixed point on multiples of `value` and hence idempotent. For larger `n`
the `size_t` arithmetic wraps and the result is 0, which is smaller than `n`. -/
theorem nextMultipleOf_least_multiple (w k n : Nat) (hk : k < w) (hn : n < 2 ^ w) :
    (n + 2 ^ k - 1 < 2 ^ w →
      2 ^ k ∣ detail.nextMultipleOf w (2 ^ k) n ∧
      n ≤ detail.nextMultipleOf w (2 ^ k) n ∧
      detail.nextMultipleOf w (2 ^ k) n < n + 2 ^ k ∧
      (∀ m, 2 ^ k ∣ m → n ≤ m → detail.nextMultipleOf w (2 ^ k) n ≤ m) ∧
      (2 ^ k ∣ n → detail.nextMultipleOf w (2 ^ k) n = n) ∧
      detail.nextMultipleOf w (2 ^ k) (detail.nextMultipleOf w (2 ^ k) n)
        = detail.nextMultipleOf w (2 ^ k) n) ∧
    (2 ^ w ≤ n + 2 ^ k - 1 →
      detail.nextMultipleOf w (2 ^ k) n = 0 ∧ detail.nextMultipleOf w (2 ^ k) n < n) := by
  have hv : 0 < 2 ^ k := Nat.two_pow_pos k
  have h2 : 2 ^ k ≤ 2 ^ w := Nat.pow_le_pow_right (by decide) hk.le
  have hlt2 : 2 ^ k < 2 ^ w := Nat.pow_lt_pow_right (by decide) hk
  have hdvd : 2 ^ k ∣ 2 ^ w := Nat.pow_dvd_pow 2 hk.le
  have hfix : ∀ r, r + 2 ^ k - 1 < 2 ^ w → 2 ^ k ∣ r → detail.nextMultipleOf w (2 ^ k) r = r := by
    intro r hr hdiv
    rw [detail.nextMultipleOf_eq w k r hk hr]
    obtain ⟨_, hge, _, hleast⟩ := detail.ceil_multiple_facts (2 ^ k) r hv
    exact Nat.le_antisymm (hleast r hdiv (Nat.le_refl r)) hge
  constructor
  · intro hfit
    rw [detail.nextMultipleOf_eq w k n hk hfit]
    obtain ⟨hd, hge, hlt, hleast⟩ := detail.ceil_multiple_facts (2 ^ k) n hv
    refine ⟨hd, hge, hlt, hleast, ?_, ?_⟩
    · intro hdiv
      have := hfix n hfit hdiv
      rwa [detail.nextMultipleOf_eq w k n hk hfit] at this
    · apply hfix _ _ hd
      -- the result is a multiple of the value below `2 ^ w`, so one more value still fits
      have hr : (n + 2 ^ k - 1) - (n + 2 ^ k - 1) % 2 ^ k < 2 ^ w := by omega
      obtain ⟨q, hq⟩ := hd
      obtain ⟨p, hp⟩ := hdvd
      rw [hq, hp] at hr ⊢
      have hqp : q < p := Nat.lt_of_mul_lt_mul_left hr
      have : 2 ^ k * (q + 1) ≤ 2 ^ k * p := Nat.mul_le_mul_left _ hqp
      rw [Nat.mul_add, Nat.mul_one] at this
      omega
  · intro hwrap
    rw [detail.nextMultipleOf_wrap w k n hk hn hwrap]
    exact ⟨rfl, by omega⟩

/-- C28 for 64-bit `size_t` and `value = 32`: 100 is rounded up to 128, and `2 ^ 64 - 3`
wraps to 0. -/
theorem nextMultipleOf_least_multiple_witness :
    (5 < 64 ∧ 100 < 2 ^ 64 ∧ 100 + 2 ^ 5 - 1 < 2 ^ 64) ∧
    detail.nextMultipleOf 64 (2 ^ 5) 100 = 128 ∧
    (2 ^ 5 ∣ detail.nextMultipleOf 64 (2 ^ 5) 100 ∧ 100 ≤ detail.nextMultipleOf 64 (2 ^ 5) 100) ∧
    (2 ^ 64 ≤ (2 ^ 64 - 3) + 2 ^ 5 - 1 ∧ detail.nextMultipleOf 64 (2 ^ 5) (2 ^ 64 - 3) = 0) :=
  ⟨by decide, by decide,
    ⟨((nextMultipleOf_least_multiple 64 5 100 (by decide) (by decide)).1 (by decide)).1,
     ((nextMultipleOf_least_multiple 64 5 100 (by decide) (by decide)).1 (by decide)).2.1⟩,
    by decide, ((nextMultipleOf_least_multiple 64 5 (2 ^ 64 - 3) (by decide) (by decide)).2
      (by decide)).1⟩

/-- C29: `detail::previousMultipleOf<value> (n)`, for every power of two `value = 2 ^ k`
(including 1) that fits `size_t` and every `size_t n`, returns `n - (n mod value)`, the
greatest multiple of `value` that is at most `n`; it never exceeds `n` and is
idempotent. Without overflow in `nextMultipleOf`,
`previousMultipleOf (n) <= n <= nextMultipleOf (n)`, with the two equal exactly when
`n` is a multiple of `value`. -/
theorem previousMultipleOf_greatest_multiple (w k n : Nat) (hk : k < w) (hn : n < 2 ^ w) :
    detail.previousMultipleOf w (2 ^ k) n = n - n % 2 ^ k ∧
    2 ^ k ∣ detail.previousMultipleOf w (2 ^ k) n ∧
    detail.previousMultipleOf w (2 ^ k) n ≤ n ∧
    (∀ m, 2 ^ k ∣ m → m ≤ n → m ≤ detail.previousMultipleOf w (2 ^ k) n) ∧
    detail.previousMultipleOf w (2 ^ k) (detail.previousMultipleOf w (2 ^ k) n)
      = detail.previousMultipleOf w (2 ^ k) n ∧
    (n + 2 ^ k - 1 < 2 ^ w →
      detail.previousMultipleOf w (2 ^ k) n ≤ n ∧ n ≤ detail.nextMultipleOf w (2 ^ k) n ∧
      (detail.previousMultipleOf w (2 ^ k) n = detail.nextMultipleOf w (2 ^ k) n ↔ 2 ^ k ∣ n)) := by
  have hv : 0 < 2 ^ k := Nat.two_pow_pos k
  have hp := detail.previousMultipleOf_eq w k n hk hn
  have hle : n - n % 2 ^ k ≤ n := Nat.sub_le _ _
  have hd : 2 ^ k ∣ n - n % 2 ^ k := Nat.dvd_sub_mod n
  have hpp : detail.previousMultipleOf w (2 ^ k) (n - n % 2 ^ k) = n - n % 2 ^ k := by
    rw [detail.previousMultipleOf_eq w k _ hk (by omega)]
    have : (n - n % 2 ^ k) % 2 ^ k = 0 := Nat.mod_eq_zero_of_dvd hd
    omega
  rw [hp]
  refine ⟨rfl, hd, hle, ?_, hpp, ?_⟩
  · rintro m ⟨q, rfl⟩ hmn
    have hdm := Nat.div_add_mod n (2 ^ k)
    have hq : q ≤ n / 2 ^ k := (Nat.le_div_iff_mul_le hv).mpr (by rw [Nat.mul_comm]; exact hmn)
    have : 2 ^ k * q ≤ 2 ^ k * (n / 2 ^ k) := Nat.mul_le_mul_left _ hq
    omega
  · intro hfit
    rw [detail.nextMultipleOf_eq w k n hk hfit]
    obtain ⟨hnd, hge, hlt, hleast⟩ := detail.ceil_multiple_facts (2 ^ k) n hv
    refine ⟨hle, hge, ?_⟩
    constructor
    · intro heq
      have : n - n % 2 ^ k = n := by omega
      rw [← this]; exact hd
    · intro hdiv
      have h0 : n % 2 ^ k = 0 := Nat.mod_eq_zero_of_dvd hdiv
      have := hleast n hdiv (Nat.le_refl n)
      omega


/-- C29 for 64-bit `size_t`: with `value = 32`, 100 is rounded down to 96 and 128 stays;
with `value = 1` every size stays. -/
theorem previousMultipleOf_greatest_multiple_witness :
    (5 < 64 ∧ 100 < 2 ^ 64) ∧
    detail.previousMultipleOf 64 (2 ^ 5) 100 = 96 ∧
    detail.previousMultipleOf 64 (2 ^ 5) 128 = 128 ∧
    detail.previousMultipleOf 64 (2 ^ 0) 77 = 77 ∧
    detail.previousMultipleOf 64 (2 ^ 5) 100 = 100 - 100 % 2 ^ 5 ∧
    detail.previousMultipleOf 64 (2 ^ 5) 100 ≤ 100 :=
  ⟨by decide,
    (previousMultipleOf_greatest_multiple 64 5 100 (by decide) (by decide)).1.trans (by decide),
    (previousMultipleOf_greatest_multiple 64 5 128 (by decide) (by decide)).1.trans (by decide),
    (previousMultipleOf_greatest_multiple 64 0 77 (by decide) (by decide)).1.trans (by decide),
    (previousMultipleOf_greatest_multiple 64 5 100 (by decide) (by decide)).1,
    (previousMultipleOf_greatest_multiple 64 5 100 (by decide) (by decide)).2.2.1⟩

/-! ## Storage info of a vector with an aligned allocator -/

/-- The aligned flag of the specialisation is set exactly for an alignment equal to the
register size. -/
theorem StorageInfoAlignedVector_dataIsSIMDAligned (alignmentInBytes maxSIMDRegisterSize : Nat) :
    IsConstexprStorageInfo.dataIsSIMDAligned
        (StorageInfoAlignedVector alignmentInBytes maxSIMDRegisterSize) = true ↔
      alignmentInBytes = maxSIMDRegisterSize := by
  simp [IsConstexprStorageInfo.dataIsSIMDAligned]

/-- C26, evaluated at an allocator alignment of 64 bytes with a register size of 32 bytes:
the extended-storage flag is set, every address the allocator can return is aligned
for SIMD access (the runtime check `detail::isPtrAligned` accepts it), the alignment is a
multiple of the register size, and the compile-time info reports
`dataIsSIMDAligned = false`. -/
theorem StorageInfoAlignedVector_multiple_not_aligned :
    IsConstexprStorageInfo.hasSIMDExtendedStorage (StorageInfoAlignedVector 64 32) = true ∧
    (32 ∣ 64 ∧ ∀ ptr, 64 ∣ ptr → detail.isPtrAligned 32 ptr = true) ∧
    IsConstexprStorageInfo.dataIsSIMDAligned (StorageInfoAlignedVector 64 32) = false ∧
    IsConstexprStorageInfo.dataIsSIMDAligned (StorageInfoAlignedVector 32 32) = true := by
  refine ⟨rfl, ⟨by decide, ?_⟩, rfl, rfl⟩
  intro ptr hptr
  have : 32 ∣ ptr := Nat.dvd_trans (by decide) hptr
  simp [detail.isPtrAligned, Nat.mod_eq_zero_of_dvd this]

/-! ## The AVX register accessor of the subtraction nodes -/

/-- For every instantiation of every subtraction class at most one of the two `getAVX`
overloads is enabled. -/
theorem getAVX_overloads_exclusive (arch : Arch) (operandsHaveGetAVX allElementTypesSame : Bool)
    (domain : NumericDomain) (shape : SubtractShape) :
    ¬ (shape.getAVXFloatEnabled arch operandsHaveGetAVX allElementTypesSame domain = true ∧
        shape.getAVXIntEnabled arch operandsHaveGetAVX allElementTypesSame domain = true) := by
  cases shape <;> cases domain <;>
    simp [SubtractShape.getAVXFloatEnabled, SubtractShape.getAVXIntEnabled,
      CommonElement.isFloatingPoint, CommonElement.isInt, CommonElement.isUnsigned]

/-- C27, evaluated on an x64 target where every vector operand exposes AVX access and all
element types are the same: for a signed integer common element type the two scalar
shapes offer `getAVX`, `SubtractVectors` offers neither overload; for floating point and
unsigned integer types all three shapes offer it. -/
theorem SubtractVectors_getAVX_signed_missing :
    (SubtractShape.SubtractVecFromSingle.hasGetAVX ⟨true, false⟩ true true .signedInt = true ∧
      SubtractShape.SubtractSingleFromVec.hasGetAVX ⟨true, false⟩ true true .signedInt = true) ∧
    (SubtractShape.SubtractVectors.getAVXFloatEnabled ⟨true, false⟩ true true .signedInt = false ∧
      SubtractShape.SubtractVectors.getAVXIntEnabled ⟨true, false⟩ true true .signedInt = false ∧
      SubtractShape.SubtractVectors.hasGetAVX ⟨true, false⟩ true true .signedInt = false) ∧
    (∀ shape : SubtractShape,
      shape.hasGetAVX ⟨true, false⟩ true true .floatingPoint = true ∧
      shape.hasGetAVX ⟨true, false⟩ true true .unsignedInt = true) := by
  refine ⟨⟨rfl, rfl⟩, ⟨rfl, rfl, rfl⟩, ?_⟩
  intro shape
  cases shape <;> exact ⟨rfl, rfl⟩

/-! ## Decibel conversion: inverse, floor and round trip -/

/-- C21: `dbToMag<DecibelConstant>` applied to a source `x` computes, for every index `i`,
10 raised to the power `x[i] * (1 / constant)`, with the constant 20 for dBFS and
dBVoltage and 10 for dBPower; the multiplier `detail::InvertedConstant<C>::value` is the
reciprocal of `C::value`. -/
theorem dbToMag_eq_pow {K : Type} [LinearOrderedField K] (pow : K → K → K)
    (decibelConstant : DecibelConstant) (x : Nat → Option K) (i : Nat) :
    dbToMag pow decibelConstant x i
      = (x i).map (fun d => pow 10 (d * (1 / (decibelConstant.value : K)))) ∧
    (DecibelConstant.dBFS.value = 20 ∧ DecibelConstant.dBVoltage.value = 20 ∧
      DecibelConstant.dBPower.value = 10) ∧
    (detail.InvertedConstant.value decibelConstant : K) * (decibelConstant.value : K) = 1 := by
  refine ⟨?_, ⟨rfl, rfl, rfl⟩, ?_⟩
  · cases hx : x i <;>
      simp [dbToMag, DBToMag, PowConstantBase, MultiplyVecByConstant,
        detail.InvertedConstant.value, hx]
  · cases decibelConstant <;> simp [detail.InvertedConstant.value, DecibelConstant.value]

/-- The value of `magToDb` at a magnitude at or above the floor. -/
theorem magToDb_above_floor {K : Type} [LinearOrderedField K] (log10 : K → K)
    (decibelConstant : DecibelConstant) (minDb : Int) (x : Nat → Option K) (i : Nat) (m : K)
    (hx : x i = some m) (h : (minDb : K) ≤ (decibelConstant.value : K) * log10 m) :
    magToDb log10 decibelConstant minDb x i = some ((decibelConstant.value : K) * log10 m) := by
  simp [magToDb, MagToDb, ClampLowByConstant, MultiplyVecByConstant, Log10, hx, mul_comm] 
  rwa [mul_comm]

/-- The value of `magToDb` at a magnitude at or below the floor. -/
theorem magToDb_below_floor {K : Type} [LinearOrderedField K] (log10 : K → K)
    (decibelConstant : DecibelConstant) (minDb : Int) (x : Nat → Option K) (i : Nat) (m : K)
    (hx : x i = some m) (h : (decibelConstant.value : K) * log10 m ≤ (minDb : K)) :
    magToDb log10 decibelConstant minDb x i = some (minDb : K) := by
  simp [magToDb, MagToDb, ClampLowByConstant, MultiplyVecByConstant, Log10, hx]
  rwa [mul_comm]

/-- C23: `magToDb` clamps at the floor: for every magnitude `m` with
`constant * log10 (m) <= minDb`, whatever value `log10` takes there (this includes a
magnitude of 0, whose `log10` lies below every floor), `magToDb (m)` equals `minDb`
exactly. -/
theorem magToDb_clamps_at_floor {K : Type} [LinearOrderedField K] (log10 : K → K)
    (decibelConstant : DecibelConstant) (minDb : Int) (x : Nat → Option K) (i : Nat) (m : K)
    (hx : x i = some m) (h : (decibelConstant.value : K) * log10 m ≤ (minDb : K)) :
    magToDb log10 decibelConstant minDb x i = some (minDb : K) ∧
    magToDb log10 decibelConstant minDb (fun _ => some m) 0 = some (minDb : K) :=
  ⟨magToDb_below_floor log10 decibelConstant minDb x i m hx h,
    magToDb_below_floor log10 decibelConstant minDb (fun _ => some m) 0 m rfl h⟩

/-- C22, amended: decibel round trip above the floor. Over the reals, for every decibel
convention, every floor `minDb` and every magnitude `m > 0` whose decibel value
`constant * log10 (m)` is at least `minDb`, `dbToMag (magToDb (m))` equals `m`. -/
theorem dbToMag_magToDb_above_floor (decibelConstant : DecibelConstant) (minDb : Int)
    (x : Nat → Option ℝ) (i : Nat) (m : ℝ) (hx : x i = some m) (hm : 0 < m)
    (hfloor : (minDb : ℝ) ≤ (decibelConstant.value : ℝ) * Real.logb 10 m) :
    dbToMag Real.rpow decibelConstant (magToDb (Real.logb 10) decibelConstant minDb x) i
      = some m := by
  have hc : (decibelConstant.value : ℝ) ≠ 0 := by
    cases decibelConstant <;> simp [DecibelConstant.value]
  have h1 := magToDb_above_floor (Real.logb 10) decibelConstant minDb x i m hx hfloor
  have h2 : (decibelConstant.value : ℝ) * Real.logb 10 m * (1 / (decibelConstant.value : ℝ))
      = Real.logb 10 m := by
    field_simp
  simp only [dbToMag, DBToMag, PowConstantBase, MultiplyVecByConstant,
    detail.InvertedConstant.value, h1, Option.map_some']
  rw [h2]
  have : ((10 : ℤ) : ℝ) = 10 := by norm_num
  rw [this]
  exact congrArg some (Real.rpow_logb (by norm_num) (by norm_num) hm)


/-- The magnitude `10 ^ (-6)` is -120 dBFS. -/
theorem decibels_of_micro : (DecibelConstant.dBFS.value : ℝ) * Real.logb 10 ((10 : ℝ) ^ (-6 : ℝ)) = -120 := by
  rw [Real.logb_rpow (by norm_num) (by norm_num)]
  norm_num [DecibelConstant.value]

/-- C23 at the magnitude `10 ^ (-6)`, -120 dBFS, with the default floor: the result is
-100. -/
theorem magToDb_clamps_at_floor_witness :
    (DecibelConstant.dBFS.value : ℝ) * Real.logb 10 ((10 : ℝ) ^ (-6 : ℝ))
        ≤ ((magToDbDefaultMinDb : Int) : ℝ) ∧
    magToDb (Real.logb 10) .dBFS magToDbDefaultMinDb (fun _ => some ((10 : ℝ) ^ (-6 : ℝ))) 0
      = some ((magToDbDefaultMinDb : Int) : ℝ) :=
  ⟨by rw [decibels_of_micro]; norm_num [magToDbDefaultMinDb],
    (magToDb_clamps_at_floor (Real.logb 10) .dBFS magToDbDefaultMinDb
      (fun _ => some ((10 : ℝ) ^ (-6 : ℝ))) 0 _ rfl
      (by rw [decibels_of_micro]; norm_num [magToDbDefaultMinDb])).1⟩

/-- C22 as stated fails below the floor: the magnitude `10 ^ (-6)` is positive, `magToDb`
with the default floor clamps its -120 dBFS to -100, and `dbToMag` returns `10 ^ (-5)`,
which is not the magnitude. -/
theorem dbToMag_magToDb_below_floor :
    (0 : ℝ) < (10 : ℝ) ^ (-6 : ℝ) ∧
    dbToMag Real.rpow .dBFS
        (magToDb (Real.logb 10) .dBFS magToDbDefaultMinDb (fun _ => some ((10 : ℝ) ^ (-6 : ℝ)))) 0
      = some ((10 : ℝ) ^ (-5 : ℝ)) ∧
    dbToMag Real.rpow .dBFS
        (magToDb (Real.logb 10) .dBFS magToDbDefaultMinDb (fun _ => some ((10 : ℝ) ^ (-6 : ℝ)))) 0
      ≠ some ((10 : ℝ) ^ (-6 : ℝ)) := by
  have hval : dbToMag Real.rpow .dBFS
        (magToDb (Real.logb 10) .dBFS magToDbDefaultMinDb (fun _ => some ((10 : ℝ) ^ (-6 : ℝ)))) 0
      = some ((10 : ℝ) ^ (-5 : ℝ)) := by
    have h1 := magToDb_below_floor (Real.logb 10) .dBFS magToDbDefaultMinDb
      (fun _ => some ((10 : ℝ) ^ (-6 : ℝ))) 0 _ rfl
      (by rw [decibels_of_micro]; norm_num [magToDbDefaultMinDb])
    simp only [dbToMag, DBToMag, PowConstantBase, MultiplyVecByConstant,
      detail.InvertedConstant.value, h1, Option.map_some']
    have e : ((magToDbDefaultMinDb : Int) : ℝ) * (1 / (DecibelConstant.dBFS.value : ℝ)) = -5 := by
      norm_num [magToDbDefaultMinDb, DecibelConstant.value]
    rw [e]
    have : ((10 : ℤ) : ℝ) = 10 := by norm_num
    rw [this]
    rfl
  refine ⟨by positivity, hval, ?_⟩
  rw [hval]
  intro h
  have h' : (10 : ℝ) ^ (-5 : ℝ) = (10 : ℝ) ^ (-6 : ℝ) := Option.some.inj h
  have := congrArg (Real.logb 10) h'
  rw [Real.logb_rpow (by norm_num) (by norm_num), Real.logb_rpow (by norm_num) (by norm_num)] at this
  norm_num at this

/-- C22, amended, at the magnitude 1 (0 dBFS) with the default floor. -/
theorem dbToMag_magToDb_above_floor_witness :
    (0 : ℝ) < 1 ∧
    ((magToDbDefaultMinDb : Int) : ℝ) ≤ (DecibelConstant.dBFS.value : ℝ) * Real.logb 10 1 ∧
    dbToMag Real.rpow .dBFS
        (magToDb (Real.logb 10) .dBFS magToDbDefaultMinDb (fun _ => some (1 : ℝ))) 0
      = some 1 :=
  ⟨by norm_num, by norm_num [magToDbDefaultMinDb],
    dbToMag_magToDb_above_floor .dBFS magToDbDefaultMinDb _ 0 1 rfl (by norm_num)
      (by norm_num [magToDbDefaultMinDb])⟩

/-! ## Sub-spans -/

/-- C25: `subSpan` views a suffix or a window of the source. For every source `v` of size
`n` and start index `s <= n`, `v.subSpan (s)` has size `n - s` and element `k` equal to
`v[s + k]`; for every length `l` with `s + l <= n`, `v.subSpan (s, l)` has size `l` and
element `k` equal to `v[s + k]`; sub-spans of sub-spans compose:
`v.subSpan (s).subSpan (t)[k] = v[s + t + k]`. -/
theorem subSpan_views_window (v : List α) (s : Nat) (hs : s ≤ v.length) :
    (∃ span, subSpan v s = some span ∧ span.length = v.length - s ∧
      ∀ k, span[k]? = v[s + k]?) ∧
    (∀ l, s + l ≤ v.length →
      ∃ span, subSpanOfLength v s l = some span ∧ span.length = l ∧
        ∀ k, k < l → span[k]? = v[s + k]?) ∧
    (∀ t, s + t ≤ v.length →
      ∃ span inner, subSpan v s = some span ∧ subSpan span t = some inner ∧
        inner.length = v.length - s - t ∧ ∀ k, inner[k]? = v[s + t + k]?) := by
  have h1 : subSpan v s = some (v.drop s) := by simp [subSpan, VCTR_ASSERT, hs]
  refine ⟨⟨v.drop s, h1, by simp, fun k => by simp⟩, ?_, ?_⟩
  · intro l hl
    refine ⟨(v.drop s).take l, by simp [subSpanOfLength, VCTR_ASSERT, hl], ?_, ?_⟩
    · simp; omega
    · intro k hk
      simp [List.getElem?_take_of_lt hk]
  · intro t ht
    have ht' : t ≤ v.length - s := by omega
    refine ⟨v.drop s, (v.drop s).drop t, h1, by simp [subSpan, VCTR_ASSERT, ht'], ?_, ?_⟩
    · simp; omega
    · intro k
      simp [Nat.add_assoc]

/-- C25 at the vector of the test, 100 elements: `subSpan<1>()` has size 99,
`subSpan<1, 80>()` has size 80, both with first element `v[1]`, and `subSpan<1>()` of
`subSpan<1>()` has size 98 with first element `v[2]`. -/
theorem subSpan_views_window_witness :
    1 ≤ Examples.vector100.length ∧
    (subSpan Examples.vector100 1).map List.length = some 99 ∧
    (subSpanOfLength Examples.vector100 1 80).map List.length = some 80 ∧
    (subSpan Examples.vector100 1).map (fun span => span[0]?) = some Examples.vector100[1]? ∧
    (subSpanOfLength Examples.vector100 1 80).map (fun span => span[0]?)
      = some Examples.vector100[1]? ∧
    (∃ span, subSpan Examples.vector100 1 = some span ∧
      span.length = Examples.vector100.length - 1 ∧
      ∀ k, span[k]? = Examples.vector100[1 + k]?) ∧
    ((subSpan Examples.vector100 1).bind (fun span => subSpan span 1)).map
        (fun span => (span.length, span[0]?)) = some (98, Examples.vector100[2]?) :=
  ⟨by decide, by decide, by decide, by decide, by decide,
    (subSpan_views_window Examples.vector100 1 (by decide)).1, by decide⟩

/-! ## The IPP threshold adapters -/

/-- The reference threshold routine follows the vendor convention. -/
theorem Examples.referenceThreshold_followsConvention [LT α]
    [DecidableRel (LT.lt : α → α → Prop)] (codes : IppStatusCodes) :
    ThresholdFollowsConvention (Examples.referenceThreshold codes : Nat → Nat → Nat → α →
      IppCmpOp → Memory α → IppStatus × Memory α) :=
  fun _ _ _ _ _ _ _ => rfl

/-- The float adapter clamps from below at the threshold it is given: a call on which the
vendor reports success leaves `dst[i] = max (src[i], thresh)` for `i < len`. -/
theorem IntelIPP.thresholdFloat_max {F : Type} [LinearOrder F] (codes : IppStatusCodes)
    (ippsThreshold_32f : Nat → Nat → Nat → F → IppCmpOp → Memory F → IppStatus × Memory F)
    (hconv : ThresholdFollowsConvention ippsThreshold_32f)
    (src : Nat) (thresh : F) (dst len : Nat) (mem : Memory F)
    (hS : len ≤ (mem src).length) (hD : len ≤ (mem dst).length)
    (hstatus : (ippsThreshold_32f src dst len thresh .ippCmpLess mem).1 = codes.ippStsNoErr) :
    ∃ mem', IntelIPP.thresholdFloat codes ippsThreshold_32f src thresh dst len mem = some mem' ∧
      ∀ i, i < len → ∃ x, (mem src)[i]? = some x ∧ (mem' dst)[i]? = some (max x thresh) := by
  refine ⟨_, IntelIPP.call_of_noErr codes .float .threshold (by simp [IntelIPP.allowedStatus])
    _ hstatus, ?_⟩
  intro i hi
  rw [hconv src dst len thresh mem hS hD]
  obtain ⟨x, hx, hr⟩ :=
    Memory.elementwise1_read (fun x => if x < thresh then thresh else x) src dst len mem hS i hi
  refine ⟨x, hx, ?_⟩
  rw [hr]
  by_cases h : x < thresh
  · simp [h, max_eq_right h.le]
  · simp [h, max_eq_left (not_lt.mp h)]

/-- The double adapter clamps from below at the caller's threshold after its conversion
to float and back: a call on which the vendor reports success leaves
`dst[i] = max (src[i], floatToDouble (doubleToFloat (t)))` for `i < len`. -/
theorem IntelIPP.thresholdDoubleCall_max {D F : Type} [LinearOrder D] (codes : IppStatusCodes)
    (ippsThreshold_64f : Nat → Nat → Nat → D → IppCmpOp → Memory D → IppStatus × Memory D)
    (hconv : ThresholdFollowsConvention ippsThreshold_64f)
    (floatToDouble : F → D) (doubleToFloat : D → F)
    (src : Nat) (t : D) (dst len : Nat) (mem : Memory D)
    (hS : len ≤ (mem src).length) (hD : len ≤ (mem dst).length)
    (hstatus : (ippsThreshold_64f src dst len (floatToDouble (doubleToFloat t)) .ippCmpLess
      mem).1 = codes.ippStsNoErr) :
    ∃ mem', IntelIPP.thresholdDoubleCall codes ippsThreshold_64f floatToDouble doubleToFloat
        src t dst len mem = some mem' ∧
      ∀ i, i < len → ∃ x, (mem src)[i]? = some x ∧
        (mem' dst)[i]? = some (max x (floatToDouble (doubleToFloat t))) := by
  refine ⟨_, IntelIPP.call_of_noErr codes .double .threshold (by simp [IntelIPP.allowedStatus])
    _ hstatus, ?_⟩
  intro i hi
  rw [hconv src dst len _ mem hS hD]
  obtain ⟨x, hx, hr⟩ :=
    Memory.elementwise1_read
      (fun x => if x < floatToDouble (doubleToFloat t) then floatToDouble (doubleToFloat t) else x)
      src dst len mem hS i hi
  refine ⟨x, hx, ?_⟩
  rw [hr]
  by_cases h : x < floatToDouble (doubleToFloat t)
  · simp [h, max_eq_right h.le]
  · simp [h, max_eq_left (not_lt.mp h)]

/-- C30, evaluated for `IntelIPP<double>` at `src = [16777216]` and the threshold
`t = 16777217`, a double that is not a float, with a routine that follows the vendor
convention: the threshold reaches the vendor routine as 16777216, the adapter leaves
`dst[0] = 16777216`, and `max (src[0], t)` is 16777217. For `IntelIPP<float>` with the
float threshold 16777218 the adapter leaves `max (src[0], t) = 16777218`. -/
theorem IntelIPP_threshold_double_narrowed :
    Examples.floatToDouble (Examples.doubleToFloat 16777217) = 16777216 ∧
    (IntelIPP.thresholdDoubleCall Examples.ippCodes (Examples.referenceThreshold Examples.ippCodes)
        Examples.floatToDouble Examples.doubleToFloat 0 16777217 32 1 Examples.doubleMemory).map
      (fun mem' => mem' 32) = some [16777216] ∧
    max (16777216 : Int) 16777217 = 16777217 ∧
    (IntelIPP.thresholdFloat Examples.ippCodes (Examples.referenceThreshold Examples.ippCodes)
        0 16777218 32 1 Examples.doubleMemory).map
      (fun mem' => mem' 32) = some [16777218] := by
  refine ⟨by decide, by decide, by decide, by decide⟩

/-! ## Materialising an expression into a Vector -/

/-- C24, evaluated at `e = ((a - b) - w) - v` over floats, whose elements are
`[-8, -22, -28]`, in a build where the expression offers the IPP-backed bulk evaluation.
The constructor `Vector (e)` leaves a vector of size 3 with the elements of `e`, and so
does the assignment to a vector of five elements that is not an operand. The
assignment `w = e` leaves `w` with size 3 and the elements `[-1, -2, -3]`; without a
bulk evaluation the same assignment leaves the elements of `e`. -/
theorem Vector_assign_aliased_bulk (f : Vctr ℚ → Nat → Bool) :
    (List.range 3).map Examples.floatOuterChain.get = [some (-8), some (-22), some (-28)] ∧
    (Vector.ofExpression
        (some (Examples.ippCodes, Examples.referenceIpps Examples.ippCodes, .float)) f 300
        Examples.floatOuterChain Examples.floatMemory).map (fun mem' => mem' 300)
      = some [-8, -22, -28] ∧
    (Vector.assign
        (some (Examples.ippCodes, Examples.referenceIpps Examples.ippCodes, .float)) f 200
        Examples.floatOuterChain (Function.update Examples.floatMemory 200 [7, 7, 7, 7, 7])).map
          (fun mem' => mem' 200)
      = some [-8, -22, -28] ∧
    (Vector.assign
        (some (Examples.ippCodes, Examples.referenceIpps Examples.ippCodes, .float)) f 96
        Examples.floatOuterChain Examples.floatMemory).map (fun mem' => mem' 96)
      = some [-1, -2, -3] ∧
    (Vector.assign none f 96 Examples.floatOuterChain Examples.floatMemory).map
        (fun mem' => mem' 96)
      = some [-8, -22, -28] := by
  refine ⟨?_, ?_, ?_, ?_, ?_⟩
  · simp [Examples.floatOuterChain, Examples.floatInnerChain, Src.get, List.range_succ]
    norm_num
  · simp [Vector.ofExpression, Vector.resize, assignExpressionTemplate, Src.isNotAliased,
      Src.toExpr, Expr.load, Expr.size, Vctr.load,
      Examples.floatOuterChain, Examples.floatInnerChain,
      Src.evalNextVectorOpInExpressionChain, Vctr.evalNextVectorOpInExpressionChain,
      IntelIPP.sub, IntelIPP.call, IntelIPP.allowedStatus, Examples.referenceIpps,
      Examples.ippCodes, assertAllowedStatus, VCTR_ASSERT, Src.size, Memory.elementwise2,
      Examples.floatMemory, Function.update]
    norm_num
  · simp [Vector.assign, Vector.resize, assignExpressionTemplate, Src.isNotAliased,
      Src.toExpr, Expr.load, Expr.size, Vctr.load,
      Examples.floatOuterChain, Examples.floatInnerChain,
      Src.evalNextVectorOpInExpressionChain, Vctr.evalNextVectorOpInExpressionChain,
      IntelIPP.sub, IntelIPP.call, IntelIPP.allowedStatus, Examples.referenceIpps,
      Examples.ippCodes, assertAllowedStatus, VCTR_ASSERT, Src.size, Memory.elementwise2,
      Examples.floatMemory, Function.update]
    norm_num
  · simp [Vector.assign, Vector.resize, assignExpressionTemplate, Src.isNotAliased,
      Src.toExpr, Expr.load, Expr.size, Vctr.load,
      Examples.floatOuterChain, Examples.floatInnerChain,
      Src.evalNextVectorOpInExpressionChain, Vctr.evalNextVectorOpInExpressionChain,
      IntelIPP.sub, IntelIPP.call, IntelIPP.allowedStatus, Examples.referenceIpps,
      Examples.ippCodes, assertAllowedStatus, VCTR_ASSERT, Src.size, Memory.elementwise2,
      Examples.floatMemory, Function.update]
  · simp [Vector.assign, Vector.resize, assignExpressionTemplate, assignElementwise,
      Src.toExpr, Expr.load, Expr.size, Expr.get, Vctr.load, Memory.store,
      Examples.floatOuterChain, Examples.floatInnerChain,
      Examples.floatMemory, Function.update, List.range_succ]
    norm_num

end Claims

end vctr
